import Mathlib

/-!
Verification development for the hsdwm window manager (src/wm.c).

The C source is shallowly embedded: machine integers are modelled as
`Int`/`Nat` with explicit wrapping where C converts between signed and
unsigned types, pure geometry computations become Lean functions, and the
stateful operations of the window manager become functions on an explicit
state record that also emit a list of X-request effects.
-/

namespace Hsdwm

/-! ## Machine-arithmetic helpers -/

/-- C `int` division: truncation toward zero, as in C99 (`Int.tdiv`). -/
def cdiv (a b : Int) : Int := Int.tdiv a b

/-- Conversion of a C `int` value to `unsigned int`: wrap modulo 2^32. -/
def toU32 (i : Int) : Nat := (i % 4294967296).toNat

/-- Conversion of a C `unsigned long` value to `int`: truncate to 32 bits,
then reinterpret in two's complement. -/
def castInt (n : Nat) : Int :=
  let m := n % 4294967296
  if m < 2147483648 then (m : Int) else (m : Int) - 4294967296

/-! ## Compile-time constants of wm.c (their default values in the source) -/

def MIN_WIN_W : Nat := 32
def MIN_WIN_H : Nat := 24
def MAX_WORKSPACES : Int := 9
def gap_outer : Int := 24
def gap_inner : Int := 8
def BORDER_PX_UNFOCUSED : Nat := 12
def DEFAULT_MASTER_FACTOR : Int := 60

/-! ## Geometry primitives -/

/-- The bound `(unsigned int)(s * 0.95)` of `clamp_size`.  The C source
computes it with a `double` multiplication; for every screen size used in
the concrete statements below the `double` product rounds to the exact
value `s * 95 / 100`, which is how it is modelled. -/
def maxDim (s : Nat) : Nat := s * 95 / 100

/-- `clamp_size` (wm.c:295-304): floor width/height at `MIN_WIN_W`/`MIN_WIN_H`,
then cap them at 95% of the screen dimensions. -/
def clamp_size (sw sh : Nat) (w h : Nat) : Nat × Nat :=
  let w1 := if w < MIN_WIN_W then MIN_WIN_W else w
  let h1 := if h < MIN_WIN_H then MIN_WIN_H else h
  let w2 := if w1 > maxDim sw then maxDim sw else w1
  let h2 := if h1 > maxDim sh then maxDim sh else h1
  (w2, h2)

/-- A window geometry as stored in a `Client`: `x`/`y` are C `int`,
`w`/`h` are C `unsigned int`. -/
structure Rect where
  x : Int
  y : Int
  w : Nat
  h : Nat
deriving DecidableEq, Repr

/-- Assignment `c->w = (unsigned)wI; c->h = (unsigned)hI; clamp_size(&c->w,&c->h)`
followed by placement at `(x, y)`. -/
def clampedRect (sw sh : Nat) (x y wI hI : Int) : Rect :=
  let p := clamp_size sw sh (toU32 wI) (toU32 hI)
  ⟨x, y, p.1, p.2⟩

/-! ## Tiling (wm.c:669-767 `tile_workspace`, wm.c:788-855 `dwindle_tile`)

The geometry each tiled client receives depends only on the screen size,
the reserved dock margins, the workspace layout and the client's position
in the workspace-filtered registry order, so tiling is modelled as a
function producing the list of geometries in that order. -/

def effective_outer : Int := gap_outer + (BORDER_PX_UNFOCUSED : Int)

/-- `avail_w` before its `MIN_WIN_W` floor. -/
def avail_w0 (sw : Nat) (rl rr : Int) : Int :=
  (sw : Int) - 2 * effective_outer - rl - rr

/-- `avail_h` before its `MIN_WIN_H` floor. -/
def avail_h0 (sh : Nat) (rt rb : Int) : Int :=
  (sh : Int) - 2 * effective_outer - rt - rb

def availW (sw : Nat) (rl rr : Int) : Int :=
  let a := avail_w0 sw rl rr
  if a < (MIN_WIN_W : Int) then (MIN_WIN_W : Int) else a

def availH (sh : Nat) (rt rb : Int) : Int :=
  let a := avail_h0 sh rt rb
  if a < (MIN_WIN_H : Int) then (MIN_WIN_H : Int) else a

def originX (rl : Int) : Int := effective_outer + rl

def originY (rt : Int) : Int := effective_outer + rt

/-- `master_w` with its `MIN_WIN_W` floor (wm.c:716-717). -/
def masterW (aw : Int) : Int :=
  let m := cdiv (aw * DEFAULT_MASTER_FACTOR) 100
  if m < (MIN_WIN_W : Int) then (MIN_WIN_W : Int) else m

/-- `stack_w` with its `MIN_WIN_W` floor (wm.c:719-722). -/
def stackW (aw : Int) : Int :=
  let s := aw - masterW aw - gap_inner
  if s < (MIN_WIN_W : Int) then (MIN_WIN_W : Int) else s

/-- `stack_each_h` (wm.c:728-729), `k` is `stack_count`. -/
def stackEachH (ah k : Int) : Int :=
  let tg := if 0 < k then (k - 1) * gap_inner else 0
  if 0 < k then cdiv (ah - tg) k else ah

/-- Master/stack placement for `n ≥ 2` clients (wm.c:715-754), in
workspace-filtered registry order: the head client first, then the stack. -/
def masterRects (sw sh : Nat) (ox oy aw ah : Int) (n : Nat) : List Rect :=
  let b : Int := (BORDER_PX_UNFOCUSED : Int)
  let mw := masterW aw
  let stw := stackW aw
  let k : Int := (n : Int) - 1
  let se := stackEachH ah k
  clampedRect sw sh ox oy (mw - 2 * b) (ah - 2 * b) ::
    (List.range (n - 1)).map (fun (i : Nat) =>
      let ny := oy + (i : Int) * (se + gap_inner)
      let nh := if (i : Int) = k - 1 then ah - (se + gap_inner) * (k - 1) else se
      clampedRect sw sh (ox + mw + gap_inner) ny (stw - 2 * b) (nh - 2 * b))

/-- The `if (ww < 1) ww = 1;` floor of `dwindle_tile`. -/
def floor1 (v : Int) : Int := if v < 1 then 1 else v

/-- `dwindle_tile` (wm.c:788-855): spiral splits alternating orientation. -/
def dwindle_tile (sw sh : Nat) : Nat → Int → Int → Int → Int → Bool → List Rect
  | 0, _, _, _, _, _ => []
  | 1, x, y, w, h, _ =>
      [clampedRect sw sh x y (floor1 (w - 2 * (BORDER_PX_UNFOCUSED : Int)))
        (floor1 (h - 2 * (BORDER_PX_UNFOCUSED : Int)))]
  | (n + 2), x, y, w, h, false =>
      let b : Int := (BORDER_PX_UNFOCUSED : Int)
      let a0 := cdiv (w * DEFAULT_MASTER_FACTOR) 100
      let a1 := if a0 < (MIN_WIN_W : Int) then (MIN_WIN_W : Int) else a0
      let a2 := if a1 > w - ((MIN_WIN_W : Int) + gap_inner)
                then w - ((MIN_WIN_W : Int) + gap_inner) else a1
      let amount := if a2 < 1 then 1 else a2
      let first := clampedRect sw sh x y (floor1 (amount - 2 * b)) (floor1 (h - 2 * b))
      let nx := x + amount + gap_inner
      let nw0 := w - amount - gap_inner
      let nw := if nw0 < (MIN_WIN_W : Int) then (MIN_WIN_W : Int) else nw0
      first :: dwindle_tile sw sh (n + 1) nx y nw h true
  | (n + 2), x, y, w, h, true =>
      let b : Int := (BORDER_PX_UNFOCUSED : Int)
      let a0 := cdiv (h * DEFAULT_MASTER_FACTOR) 100
      let a1 := if a0 < (MIN_WIN_H : Int) then (MIN_WIN_H : Int) else a0
      let a2 := if a1 > h - ((MIN_WIN_H : Int) + gap_inner)
                then h - ((MIN_WIN_H : Int) + gap_inner) else a1
      let amount := if a2 < 1 then 1 else a2
      let first := clampedRect sw sh x y (floor1 (w - 2 * b)) (floor1 (amount - 2 * b))
      let ny := y + amount + gap_inner
      let nh0 := h - amount - gap_inner
      let nh := if nh0 < (MIN_WIN_H : Int) then (MIN_WIN_H : Int) else nh0
      first :: dwindle_tile sw sh (n + 1) x ny w nh false

/-- `tile_workspace` (wm.c:669-767) as the list of geometries assigned to
the workspace's clients, in registry order.  `layout = 0` is `LAYOUT_MASTER`,
anything else is `LAYOUT_DWINDLE`. -/
def tile_workspace (sw sh : Nat) (rl rr rt rb : Int) (layout n : Nat) : List Rect :=
  if n = 0 then [] else
  let ox := originX rl
  let oy := originY rt
  let aw := availW sw rl rr
  let ah := availH sh rt rb
  if n = 1 then
    [clampedRect sw sh ox oy (aw - 2 * (BORDER_PX_UNFOCUSED : Int))
      (ah - 2 * (BORDER_PX_UNFOCUSED : Int))]
  else if layout = 0 then masterRects sw sh ox oy aw ah n
  else dwindle_tile sw sh n ox oy aw ah false

/-! ## Frames: a placed window plus its X border of width `b` on each side -/

def frameW (r : Rect) : Int := (r.w : Int) + 2 * (BORDER_PX_UNFOCUSED : Int)

def frameH (r : Rect) : Int := (r.h : Int) + 2 * (BORDER_PX_UNFOCUSED : Int)

/-- The frame of `r` lies inside the rectangle of origin `(ox, oy)` and
size `aw × ah`. -/
def InAvail (ox oy aw ah : Int) (r : Rect) : Prop :=
  ox ≤ r.x ∧ oy ≤ r.y ∧ r.x + frameW r ≤ ox + aw ∧ r.y + frameH r ≤ oy + ah

instance (ox oy aw ah : Int) (r : Rect) : Decidable (InAvail ox oy aw ah r) := by
  unfold InAvail; infer_instance

/-- The frames of `r` and `s` do not overlap. -/
def FramesDisjoint (r s : Rect) : Prop :=
  r.x + frameW r ≤ s.x ∨ s.x + frameW s ≤ r.x ∨
  r.y + frameH r ≤ s.y ∨ s.y + frameH s ≤ r.y

instance (r s : Rect) : Decidable (FramesDisjoint r s) := by
  unfold FramesDisjoint; infer_instance

/-! ## Conditions under which no size clamp fires during tiling

`clamp_size`, the `MIN_WIN_*` floors and the `(unsigned)` casts can
distort the computed geometry.  The predicates below say that every
computed size stays strictly inside the clamping bounds, so the tiling
formulas apply verbatim. -/

/-- No clamp fires in the single-client branch (wm.c:701-711). -/
def singleOk (sw sh : Nat) (aw ah : Int) : Prop :=
  56 ≤ aw ∧ aw - 24 ≤ (maxDim sw : Int) ∧ 48 ≤ ah ∧ ah - 24 ≤ (maxDim sh : Int)

instance (sw sh : Nat) (aw ah : Int) : Decidable (singleOk sw sh aw ah) := by
  unfold singleOk; infer_instance

/-- No floor or clamp fires in the master/stack branch (wm.c:715-754). -/
def masterOk (sw sh : Nat) (aw ah : Int) (n : Nat) : Prop :=
  let mw := cdiv (aw * DEFAULT_MASTER_FACTOR) 100
  let stw := aw - mw - gap_inner
  let k : Int := (n : Int) - 1
  let d := ah - (k - 1) * gap_inner
  let se := cdiv d k
  let lastH := ah - (se + gap_inner) * (k - 1)
  2 ≤ n ∧
  56 ≤ mw ∧ mw - 24 ≤ (maxDim sw : Int) ∧
  56 ≤ stw ∧ stw - 24 ≤ (maxDim sw : Int) ∧
  48 ≤ ah ∧ ah - 24 ≤ (maxDim sh : Int) ∧
  0 ≤ d ∧ 48 ≤ se ∧ se - 24 ≤ (maxDim sh : Int) ∧
  48 ≤ lastH ∧ lastH - 24 ≤ (maxDim sh : Int)

instance (sw sh : Nat) (aw ah : Int) (n : Nat) : Decidable (masterOk sw sh aw ah n) := by
  unfold masterOk; infer_instance

/-- No floor or clamp fires anywhere in the dwindle recursion
(wm.c:788-855). -/
def dwindleOk (sw sh : Nat) : Nat → Int → Int → Bool → Bool
  | 0, _, _, _ => true
  | 1, w, h, _ =>
      decide (56 ≤ w) && decide (w - 24 ≤ (maxDim sw : Int)) &&
      decide (48 ≤ h) && decide (h - 24 ≤ (maxDim sh : Int))
  | (n + 2), w, h, false =>
      let a0 := cdiv (w * DEFAULT_MASTER_FACTOR) 100
      decide (56 ≤ a0) && decide (a0 ≤ w - 40) &&
      decide (a0 - 24 ≤ (maxDim sw : Int)) &&
      decide (48 ≤ h) && decide (h - 24 ≤ (maxDim sh : Int)) &&
      dwindleOk sw sh (n + 1) (w - a0 - gap_inner) h true
  | (n + 2), w, h, true =>
      let a0 := cdiv (h * DEFAULT_MASTER_FACTOR) 100
      decide (48 ≤ a0) && decide (a0 ≤ h - 32) &&
      decide (a0 - 24 ≤ (maxDim sh : Int)) &&
      decide (56 ≤ w) && decide (w - 24 ≤ (maxDim sw : Int)) &&
      dwindleOk sw sh (n + 1) w (h - a0 - gap_inner) false

/-- No floor or clamp fires anywhere in `tile_workspace`: the screen fits
in a C `int`, the available sizes need no `MIN` floor, and the branch
taken for `(layout, n)` keeps every computed size inside the clamping
bounds. -/
def tileOk (sw sh : Nat) (rl rr rt rb : Int) (layout n : Nat) : Prop :=
  let aw := avail_w0 sw rl rr
  let ah := avail_h0 sh rt rb
  sw ≤ 2147483647 ∧ sh ≤ 2147483647 ∧
  32 ≤ aw ∧ 24 ≤ ah ∧
  (n ≤ 1 → singleOk sw sh aw ah) ∧
  (2 ≤ n → layout = 0 → masterOk sw sh aw ah n) ∧
  (2 ≤ n → layout ≠ 0 → dwindleOk sw sh n aw ah false = true)

instance (sw sh : Nat) (rl rr rt rb : Int) (layout n : Nat) :
    Decidable (tileOk sw sh rl rr rt rb layout n) := by
  unfold tileOk; infer_instance

/-! ## Clients (the `Client` record of wm.c:85-107)

`win` stands for the X11 `Window` handle; client identity in the model is
by `win`, with registry well-formedness requiring handles to be distinct.
Strut cardinals are C `unsigned long` values, modelled as `Nat`. -/

structure CClient where
  win : Nat
  x : Int := 0
  y : Int := 0
  w : Nat := 0
  h : Nat := 0
  workspace : Int := 0
  is_dock : Bool := false
  strut_left : Nat := 0
  strut_right : Nat := 0
  strut_top : Nat := 0
  strut_bottom : Nat := 0
  strut_left_start_y : Nat := 0
  strut_left_end_y : Nat := 0
  strut_right_start_y : Nat := 0
  strut_right_end_y : Nat := 0
  strut_top_start_x : Nat := 0
  strut_top_end_x : Nat := 0
  strut_bottom_start_x : Nat := 0
  strut_bottom_end_x : Nat := 0
deriving DecidableEq, Repr

/-- The twelve strut cardinals of a client, as a tuple-like list. -/
def strutsOf (c : CClient) : List Nat :=
  [c.strut_left, c.strut_right, c.strut_top, c.strut_bottom,
   c.strut_left_start_y, c.strut_left_end_y, c.strut_right_start_y, c.strut_right_end_y,
   c.strut_top_start_x, c.strut_top_end_x, c.strut_bottom_start_x, c.strut_bottom_end_x]

/-! ## Window properties and `get_window_type_and_strut` (wm.c:311-365) -/

/-- The interned `_NET_WM_WINDOW_TYPE_DOCK` atom.  Atom values are
server-assigned; the model fixes a distinguished value for it. -/
def NET_WM_WINDOW_TYPE_DOCK_ATOM : Nat := 317

/-- The properties of a window that `get_window_type_and_strut` reads:
the list of `_NET_WM_WINDOW_TYPE` atoms and the cardinals of
`_NET_WM_STRUT_PARTIAL`; `none` models an absent property (a failed
`XGetWindowProperty`). -/
structure XProps where
  typeAtoms : Option (List Nat) := none
  strutVals : Option (List Nat) := none
deriving DecidableEq, Repr

/-- The reset of the dock flag and all strut fields at the top of
`get_window_type_and_strut` (wm.c:313-318). -/
def resetStruts (c : CClient) : CClient :=
  { c with is_dock := false,
           strut_left := 0, strut_right := 0, strut_top := 0, strut_bottom := 0,
           strut_left_start_y := 0, strut_left_end_y := 0,
           strut_right_start_y := 0, strut_right_end_y := 0,
           strut_top_start_x := 0, strut_top_end_x := 0,
           strut_bottom_start_x := 0, strut_bottom_end_x := 0 }

/-- The `_NET_WM_WINDOW_TYPE` phase of `get_window_type_and_strut`
(wm.c:326-336): mark dock if the type list contains the dock atom. -/
def readWindowType (ta : Option (List Nat)) (c : CClient) : CClient :=
  match ta with
  | none => c
  | some atoms =>
      if atoms.any (· = NET_WM_WINDOW_TYPE_DOCK_ATOM) then { c with is_dock := true } else c

/-- The `_NET_WM_STRUT_PARTIAL` phase of `get_window_type_and_strut`
(wm.c:339-364): read up to 12 cardinals (`XGetWindowProperty` with
`long_length` 12 returns at most 12 items); only when all 12 are present,
also mark dock if any of the four primary sizes is non-zero. -/
def readStrutPartial (sv : Option (List Nat)) (c : CClient) : CClient :=
  match sv with
  | none => c
  | some vals0 =>
      let vals := vals0.take 12
      let c2 := if 4 ≤ vals.length then
          { c with strut_left := vals.getD 0 0, strut_right := vals.getD 1 0,
                   strut_top := vals.getD 2 0, strut_bottom := vals.getD 3 0 }
        else c
      if 12 ≤ vals.length then
        let c3 := { c2 with strut_left_start_y := vals.getD 4 0, strut_left_end_y := vals.getD 5 0,
                            strut_right_start_y := vals.getD 6 0, strut_right_end_y := vals.getD 7 0,
                            strut_top_start_x := vals.getD 8 0, strut_top_end_x := vals.getD 9 0,
                            strut_bottom_start_x := vals.getD 10 0,
                            strut_bottom_end_x := vals.getD 11 0 }
        if c3.strut_left ≠ 0 ∨ c3.strut_right ≠ 0 ∨ c3.strut_top ≠ 0 ∨ c3.strut_bottom ≠ 0 then
          { c3 with is_dock := true }
        else c3
      else c2

/-- `get_window_type_and_strut` (wm.c:311-365). -/
def get_window_type_and_strut (p : XProps) (c : CClient) : CClient :=
  readStrutPartial p.strutVals (readWindowType p.typeAtoms (resetStruts c))

/-- The classification claimed by the specification: dock iff some primary
strut size is non-zero or the window type contains the dock atom. -/
def specDockClassification (p : XProps) : Bool :=
  (match p.typeAtoms with
   | none => false
   | some atoms => atoms.any (· = NET_WM_WINDOW_TYPE_DOCK_ATOM)) ||
  (match p.strutVals with
   | none => false
   | some vals0 =>
      let vals := (vals0.take 12).take 4
      vals.any (· ≠ 0))

/-! ## Reserved dock margins and dock geometry (wm.c:368-377, 400-473) -/

structure Reserved where
  left : Int := 0
  right : Int := 0
  top : Int := 0
  bottom : Int := 0
deriving DecidableEq, Repr

/-- `update_global_struts` (wm.c:368-377): per-side maximum of the dock
clients' primary strut sizes (cast to `int`), starting from zero. -/
def update_global_struts (cs : List CClient) : Reserved :=
  cs.foldl (fun rv c =>
    if c.is_dock = false then rv else
    { left   := if rv.left < castInt c.strut_left then castInt c.strut_left else rv.left
      right  := if rv.right < castInt c.strut_right then castInt c.strut_right else rv.right
      top    := if rv.top < castInt c.strut_top then castInt c.strut_top else rv.top
      bottom := if rv.bottom < castInt c.strut_bottom then castInt c.strut_bottom else rv.bottom })
    { left := 0, right := 0, top := 0, bottom := 0 }

/-- The strut-derived dock geometry (wm.c:408-456) before the final
sanity clamps, as a function of the strut fields, the screen size and the
reserved margins only.  Returns `none` when every primary strut is zero
(the branch that keeps the client's current geometry). -/
def dock_geometry_from_struts (sw sh : Nat) (rv : Reserved) (c : CClient) :
    Option (Int × Int × Int × Int) :=
  let swI : Int := (sw : Int)
  let shI : Int := (sh : Int)
  if 0 < c.strut_top then
    let p := if c.strut_top_start_x < c.strut_top_end_x
      then (castInt c.strut_top_start_x, castInt (c.strut_top_end_x - c.strut_top_start_x + 1))
      else ((0 : Int), swI - rv.left - rv.right)
    some (p.1, 0, p.2, castInt c.strut_top)
  else if 0 < c.strut_bottom then
    let nh := castInt c.strut_bottom
    let p := if c.strut_bottom_start_x < c.strut_bottom_end_x
      then (castInt c.strut_bottom_start_x,
            castInt (c.strut_bottom_end_x - c.strut_bottom_start_x + 1))
      else ((0 : Int), swI - rv.left - rv.right)
    some (p.1, shI - nh, p.2, nh)
  else if 0 < c.strut_left then
    let p := if c.strut_left_start_y < c.strut_left_end_y
      then (castInt c.strut_left_start_y, castInt (c.strut_left_end_y - c.strut_left_start_y + 1))
      else ((0 : Int), shI - rv.top - rv.bottom)
    some (0, p.1, castInt c.strut_left, p.2)
  else if 0 < c.strut_right then
    let nw := castInt c.strut_right
    let p := if c.strut_right_start_y < c.strut_right_end_y
      then (castInt c.strut_right_start_y,
            castInt (c.strut_right_end_y - c.strut_right_start_y + 1))
      else ((0 : Int), shI - rv.top - rv.bottom)
    some (swI - nw, p.1, nw, p.2)
  else none

/-- The sanity clamps of `apply_dock_geometry` (wm.c:459-464) followed by
the `(unsigned int)` stores into `c->w`/`c->h` (wm.c:469-470). -/
def dock_sanity (sw sh : Nat) (g : Int × Int × Int × Int) : Int × Int × Nat × Nat :=
  let nx0 := g.1
  let ny0 := g.2.1
  let nw0 := g.2.2.1
  let nh0 := g.2.2.2
  let nx := if nx0 < 0 then 0 else nx0
  let ny := if ny0 < 0 then 0 else ny0
  let nw1 := if nw0 < 1 then 1 else nw0
  let nh1 := if nh0 < 1 then 1 else nh0
  let nw2 := if (sw : Int) < nx + nw1 then (sw : Int) - nx else nw1
  let nh2 := if (sh : Int) < ny + nh1 then (sh : Int) - ny else nh1
  (nx, ny, toU32 nw2, toU32 nh2)

/-- `apply_dock_geometry` (wm.c:400-473). -/
def apply_dock_geometry (sw sh : Nat) (rv : Reserved) (c : CClient) : CClient :=
  if c.is_dock = false then c else
  let g0 := match dock_geometry_from_struts sw sh rv c with
    | some g => g
    | none => (c.x, c.y, (c.w : Int), (c.h : Int))
  let s := dock_sanity sw sh g0
  { c with x := s.1, y := s.2.1, w := s.2.2.1, h := s.2.2.2 }

/-! ## Directional neighbor finder (wm.c:1062-1183) -/

/-- `overlap_len` (wm.c:1062-1066). -/
def overlap_len (a1 a2 b1 b2 : Int) : Int :=
  let lo := if b1 < a1 then a1 else b1
  let hi := if a2 < b2 then a2 else b2
  if lo < hi then hi - lo else 0

/-- The per-candidate quantities of `find_neighbor_in_direction`
(wm.c:1107-1159): whether the candidate is in-direction, the perpendicular
overlap, and the primary/secondary distances.  Directions: 0 = left,
1 = down, 2 = up, 3 = right (the final `else` of the C chain is down). -/
def neighborData (cur c : CClient) (dir : Nat) : Bool × Int × Int × Int :=
  let cx1 := cur.x
  let cy1 := cur.y
  let cx2 := cur.x + (cur.w : Int)
  let cy2 := cur.y + (cur.h : Int)
  let ccx := cx1 + (cur.w : Int) / 2
  let ccy := cy1 + (cur.h : Int) / 2
  let ax1 := c.x
  let ay1 := c.y
  let ax2 := c.x + (c.w : Int)
  let ay2 := c.y + (c.h : Int)
  let acx := ax1 + (c.w : Int) / 2
  let acy := ay1 + (c.h : Int) / 2
  if dir = 0 then
    let ov := overlap_len ay1 ay2 cy1 cy2
    let p := if ax2 ≤ cx1 then (true, cx1 - ax2)
             else if 0 < ov ∧ ax1 < cx1 then (true, 0)
             else (false, |acx - ccx|)
    (p.1, ov, p.2, if 0 < ov then 0 else |acy - ccy|)
  else if dir = 3 then
    let ov := overlap_len ay1 ay2 cy1 cy2
    let p := if cx2 ≤ ax1 then (true, ax1 - cx2)
             else if 0 < ov ∧ cx2 < ax2 then (true, 0)
             else (false, |acx - ccx|)
    (p.1, ov, p.2, if 0 < ov then 0 else |acy - ccy|)
  else if dir = 2 then
    let ov := overlap_len ax1 ax2 cx1 cx2
    let p := if ay2 ≤ cy1 then (true, cy1 - ay2)
             else if 0 < ov ∧ ay1 < cy1 then (true, 0)
             else (false, |acy - ccy|)
    (p.1, ov, p.2, if 0 < ov then 0 else |acx - ccx|)
  else
    let ov := overlap_len ax1 ax2 cx1 cx2
    let p := if cy2 ≤ ay1 then (true, ay1 - cy2)
             else if 0 < ov ∧ cy2 < ay2 then (true, 0)
             else (false, |acy - ccy|)
    (p.1, ov, p.2, if 0 < ov then 0 else |acx - ccx|)

/-- Whether `c` counts as in-direction from `cur` for direction `dir`. -/
def inDirB (cur c : CClient) (dir : Nat) : Bool := (neighborData cur c dir).1

/-- Squared center distance, the fallback score used while no in-direction
candidate has been seen (wm.c:1169-1174). -/
def centerDist (cur c : CClient) : Int :=
  let ccx := cur.x + (cur.w : Int) / 2
  let ccy := cur.y + (cur.h : Int) / 2
  let acx := c.x + (c.w : Int) / 2
  let acy := c.y + (c.h : Int) / 2
  (acx - ccx) * (acx - ccx) + (acy - ccy) * (acy - ccy)

/-- The score a candidate receives, given whether an in-direction
candidate was already found earlier in the scan (wm.c:1161-1174). -/
def candScore (cur c : CClient) (dir : Nat) (foundBefore : Bool) : Int :=
  let d := neighborData cur c dir
  let base := d.2.2.1 * 100000 + d.2.2.2 * 100
  if d.1 then
    if 0 < d.2.1 then base - 1000000000 - 500000000 else base - 1000000000
  else if foundBefore then base
  else centerDist cur c

/-- One step of the scan loop of `find_neighbor_in_direction`
(wm.c:1090-1180); the state is `(best, best_score, found_in_dir)`. -/
def neighborStep (ws : Int) (cur : CClient) (dir : Nat)
    (st : Option CClient × Int × Bool) (c : CClient) : Option CClient × Int × Bool :=
  if c.workspace ≠ ws ∨ c.win = cur.win ∨ c.is_dock then st else
  let found' := st.2.2 || inDirB cur c dir
  let score := candScore cur c dir st.2.2
  if score < st.2.1 then (some c, score, found') else (st.1, st.2.1, found')

/-- `find_neighbor_in_direction` (wm.c:1069-1183).  `LLONG_MAX` is the
initial best score. -/
def find_neighbor_in_direction (cs : List CClient) (ws : Int) (cur : CClient) (dir : Nat) :
    Option CClient :=
  if cs.isEmpty then none else
  let start? := if cur.workspace = ws then some cur else cs.find? (fun c => c.workspace == ws)
  match start? with
  | none => none
  | some cur' =>
      (cs.foldl (neighborStep ws cur' dir) (none, 9223372036854775807, false)).1

/-- The filter applied to candidates in the scan loop (wm.c:1091-1093):
same workspace, not the current client, not a dock. -/
def neighborPasses (ws : Int) (cur c : CClient) : Prop :=
  c.workspace = ws ∧ c.win ≠ cur.win ∧ c.is_dock = false

instance (ws : Int) (cur c : CClient) : Decidable (neighborPasses ws cur c) := by
  unfold neighborPasses; infer_instance

/-- Invariant of the scan state `(best, best_score, found_in_dir)`: while
no in-direction candidate has been seen the best score is nonnegative;
afterwards the best is an in-direction candidate with negative score. -/
def NInv (ws : Int) (cur : CClient) (dir : Nat) (st : Option CClient × Int × Bool) : Prop :=
  (st.2.2 = false → 0 ≤ st.2.1) ∧
  (st.2.2 = true → ∃ bc, st.1 = some bc ∧ st.2.1 < 0 ∧
      neighborPasses ws cur bc ∧ inDirB cur bc dir = true)

/-! ## X-request effects

The requests the window manager issues to the X server and the sidecar
files it writes, recorded as an effect trace by the state operations. -/

inductive XEff where
  | mapWin (w : Nat)
  | unmapWin (w : Nat)
  | moveResize (w : Nat) (x y : Int) (ww hh : Nat)
  | raiseWin (w : Nat)
  | setInputFocus (w : Nat)
  | setBorder (w : Nat)
  | setBorderWidth (w : Nat) (bw : Nat)
  | selectInput (w : Nat) (dockMask : Bool)
  | setWMProtocols (w : Nat)
  | setDockAbove (w : Nat)
  | writeFocusedFile (ws : Int)
  | writeOccupiedFile
deriving DecidableEq, Repr

/-! ## The window-manager state (the globals of wm.c:109-142) -/

structure WMState where
  registry : List CClient
  focused : Option Nat := none
  current_workspace : Int := 0
  cycling : Bool := false
  cycle_start : Option Nat := none
  tagTiling : Int → Bool
  layoutOf : Int → Nat
  reserved : Reserved := {}
  sw : Nat
  sh : Nat

/-- `find_client` (wm.c:255-259). -/
def find_client (cs : List CClient) (w : Nat) : Option CClient :=
  cs.find? (·.win == w)

/-- `restack_docks` (wm.c:387-394). -/
def restack_docks (cs : List CClient) : List XEff :=
  cs.flatMap (fun c => if c.is_dock then [XEff.mapWin c.win, XEff.raiseWin c.win] else [])

/-- `update_borders` (wm.c:476-497). -/
def update_borders (s : WMState) : List XEff :=
  (s.registry.flatMap (fun c =>
    if c.is_dock then []
    else if c.workspace ≠ s.current_workspace then [XEff.setBorderWidth c.win 0]
    else if s.focused = some c.win then
      [XEff.setBorderWidth c.win BORDER_PX_UNFOCUSED, XEff.setBorder c.win, XEff.raiseWin c.win]
    else [XEff.setBorderWidth c.win BORDER_PX_UNFOCUSED, XEff.setBorder c.win])) ++
  restack_docks s.registry

/-- Application of the geometries computed by `tile_workspace` to the
workspace's clients, in registry order (the per-client
`XMoveResizeWindow` of the tiling loops). -/
def applyRects (ws : Int) : List CClient → List Rect → List CClient × List XEff
  | [], _ => ([], [])
  | c :: cs, rects =>
      if c.workspace = ws then
        match rects with
        | [] =>
            let p := applyRects ws cs []
            (c :: p.1, p.2)
        | r :: rs =>
            let c' := { c with x := r.x, y := r.y, w := r.w, h := r.h }
            let p := applyRects ws cs rs
            (c' :: p.1, XEff.moveResize c.win r.x r.y r.w r.h :: p.2)
      else
        let p := applyRects ws cs rects
        (c :: p.1, p.2)

/-- `tile_workspace` (wm.c:669-767) as a state operation. -/
def tile_workspace_state (s : WMState) (ws : Int) : WMState × List XEff :=
  if ws < 0 ∨ MAX_WORKSPACES ≤ ws then (s, []) else
  let n := (s.registry.filter (fun c => c.workspace == ws)).length
  if n = 0 then (s, []) else
  let rects := tile_workspace s.sw s.sh s.reserved.left s.reserved.right
    s.reserved.top s.reserved.bottom (s.layoutOf ws) n
  let p := applyRects ws s.registry rects
  ({ s with registry := p.1 }, p.2)

/-! ## manage / unmanage (wm.c:500-611) -/

structure WinAttrs where
  override_redirect : Bool := false
  x : Int := 0
  y : Int := 0
  width : Nat := 0
  height : Nat := 0
deriving DecidableEq, Repr

/-- `manage` (wm.c:500-582).  `attrsOk` models the success of the initial
`XGetWindowAttributes`; the root window is never passed.  The second
attribute query is modelled as returning the same attributes. -/
def manage (s : WMState) (win : Nat) (attrsOk : Bool) (wa : WinAttrs) (props : XProps) :
    WMState × List XEff :=
  if attrsOk = false then (s, []) else
  let c0 : CClient := { win := win, workspace := s.current_workspace }
  let c1 := get_window_type_and_strut props c0
  if wa.override_redirect && !c1.is_dock then (s, []) else
  let p := clamp_size s.sw s.sh wa.width wa.height
  let cx := cdiv ((s.sw : Int) - (p.1 : Int)) 2
  let cy := cdiv ((s.sh : Int) - (p.2 : Int)) 2
  let c2 := { c1 with w := p.1, h := p.2, x := cx, y := cy }
  let preEffs := [XEff.setBorderWidth win 0, XEff.setBorder win,
                  XEff.moveResize win cx cy p.1 p.2, XEff.selectInput win c2.is_dock,
                  XEff.setWMProtocols win]
  if c2.is_dock then
    let c3 := { c2 with workspace := -1 }
    let c4 := apply_dock_geometry s.sw s.sh s.reserved c3
    let s1 := { s with registry := c4 :: s.registry }
    let s2 := { s1 with reserved := update_global_struts s1.registry }
    (s2, preEffs ++ [XEff.moveResize win c4.x c4.y c4.w c4.h, XEff.setDockAbove win,
                     XEff.mapWin win, XEff.raiseWin win] ++
         update_borders s2 ++ [XEff.writeOccupiedFile])
  else
    let s1 := { s with registry := c2 :: s.registry }
    let mapE := if c2.workspace = s.current_workspace then [XEff.mapWin win] else []
    let s2 := { s1 with focused := some win }
    let (s3, tileE) := if s2.tagTiling c2.workspace
      then tile_workspace_state s2 c2.workspace else (s2, [])
    (s3, preEffs ++ mapE ++ [XEff.writeOccupiedFile, XEff.raiseWin win,
                             XEff.setInputFocus win] ++ update_borders s2 ++
         [XEff.writeFocusedFile s.current_workspace] ++ tileE)

/-- `unmanage` (wm.c:584-611). -/
def unmanage (s : WMState) (win : Nat) : WMState × List XEff :=
  match find_client s.registry win with
  | none => (s, [])
  | some c =>
    let ws := c.workspace
    let reg' : List CClient := s.registry.eraseP (fun c => c.win == win)
    let s1 := { s with registry := reg', reserved := update_global_struts reg' }
    let (s2, focusEffs) :=
      match s1.focused with
      | none => (s1, ([] : List XEff))
      | some fw =>
        match find_client reg' fw with
        | some _ => (s1, [])
        | none =>
          let newF : Option Nat :=
            (reg'.find? (fun cc : CClient => cc.workspace == s1.current_workspace)).map
              (fun cc : CClient => cc.win)
          let s2 := { s1 with focused := newF }
          match newF with
          | some nw => (s2, update_borders s2 ++
              [XEff.raiseWin nw, XEff.setInputFocus nw,
               XEff.writeFocusedFile s2.current_workspace])
          | none => (s2, update_borders s2 ++ [XEff.writeFocusedFile s2.current_workspace])
    let (s3, tileE) := if 0 ≤ ws ∧ ws < MAX_WORKSPACES ∧ s2.tagTiling ws = true
      then tile_workspace_state s2 ws else (s2, [])
    (s3, [XEff.writeOccupiedFile] ++ focusEffs ++ tileE)

/-! ## Workspace switching and retagging (wm.c:872-907) -/

/-- `switch_workspace` (wm.c:872-896). -/
def switch_workspace (s : WMState) (ws : Int) : WMState × List XEff :=
  if ws < 0 ∨ MAX_WORKSPACES ≤ ws then (s, []) else
  if ws = s.current_workspace then (s, []) else
  let s1 := { s with current_workspace := ws }
  let mapEffs := s1.registry.flatMap (fun c =>
    if c.workspace = ws ∨ c.workspace = -1 then [XEff.mapWin c.win] else [XEff.unmapWin c.win])
  let newFocus := (s1.registry.find? (fun c => c.workspace == ws)).map (·.win)
  let s2 := { s1 with focused := newFocus }
  let focusEffs := match newFocus with
    | some fw => [XEff.raiseWin fw, XEff.setInputFocus fw]
    | none => []
  let (s3, tileE) := if s2.tagTiling ws then tile_workspace_state s2 ws else (s2, [])
  (s3, mapEffs ++ focusEffs ++ tileE ++ update_borders s3 ++
       [XEff.writeFocusedFile ws, XEff.writeOccupiedFile])

/-- `move_focused_to_workspace` (wm.c:898-907). -/
def move_focused_to_workspace (s : WMState) (ws : Int) : WMState × List XEff :=
  match s.focused with
  | none => (s, [])
  | some fw =>
    if ws < 0 ∨ MAX_WORKSPACES ≤ ws then (s, []) else
    let reg' := s.registry.map (fun c => if c.win = fw then { c with workspace := ws } else c)
    let s1 := { s with registry := reg' }
    let unmapE := if ws ≠ s.current_workspace then [XEff.unmapWin fw] else []
    let (s2, t1) := if s1.tagTiling ws then tile_workspace_state s1 ws else (s1, [])
    let (s3, t2) := if s2.tagTiling s.current_workspace
      then tile_workspace_state s2 s.current_workspace else (s2, [])
    (s3, unmapE ++ [XEff.writeOccupiedFile] ++ t1 ++ t2)

/-! ## Focus helpers (wm.c:1024-1047) -/

/-- `focus_client_proper` (wm.c:1024-1033); a null pointer argument is the
`none` lookup result. -/
def focus_client_proper (s : WMState) (win : Nat) : WMState × List XEff :=
  match find_client s.registry win with
  | none => (s, [])
  | some c =>
    if c.workspace ≠ s.current_workspace then (s, []) else
    if s.focused = some win then (s, []) else
    let s1 := { s with focused := some win }
    (s1, [XEff.raiseWin win, XEff.setInputFocus win] ++ update_borders s1 ++
         [XEff.writeFocusedFile s.current_workspace])

/-! ## Alt-Tab cycling (wm.c:909-944)

The registry is a doubly-linked list; positions in the model's list play
the role of node pointers.  `c->next ? c->next : clients` is a forward
step with wrap to the head; `c->prev ? c->prev : NULL` followed by
`if (!c) c = clients` sends the head to itself on a backward step.
The inner skip loop of `cycle_focus` need not terminate (stepping
backward from the head sticks there), so the walk carries fuel and `none`
models non-termination of the C loop. -/

def onWsIdx (cs : List CClient) (ws : Int) (i : Nat) : Bool :=
  match cs[i]? with
  | some c => c.workspace == ws
  | none => false

def stepIdx (n : Nat) (forward : Bool) (i : Nat) : Nat :=
  if forward then (if i + 1 < n then i + 1 else 0)
  else (if i = 0 then 0 else i - 1)

/-- The inner skip loop of `cycle_focus` (wm.c:925-929). -/
def cycInner (cs : List CClient) (ws : Int) (start : Nat) (forward : Bool) :
    Nat → Nat → Option Nat
  | 0, _ => none
  | fuel + 1, c =>
      if onWsIdx cs ws c then some c
      else
        let c' := stepIdx cs.length forward c
        if c' = start then some c'
        else cycInner cs ws start forward fuel c'

/-- The outer do-while loop of `cycle_focus` (wm.c:922-931). -/
def cycOuter (cs : List CClient) (ws : Int) (start : Nat) (forward : Bool) :
    Nat → Nat → Option Nat
  | 0, _ => none
  | fuel + 1, c =>
      let c1 := stepIdx cs.length forward c
      match cycInner cs ws start forward (cs.length + 1) c1 with
      | none => none
      | some c2 =>
          if onWsIdx cs ws c2 then some c2
          else if c2 = start then some c2
          else cycOuter cs ws start forward fuel c2

/-- `start_cycle` (wm.c:910-914). -/
def start_cycle (s : WMState) : WMState :=
  if s.registry.isEmpty then s else { s with cycling := true, cycle_start := s.focused }

/-- `stop_cycle` (wm.c:941-944). -/
def stop_cycle (s : WMState) : WMState := { s with cycling := false, cycle_start := none }

/-- `cycle_focus` (wm.c:916-939); `none` models a non-terminating scan
loop. -/
def cycle_focus (s : WMState) (forward : Bool) : Option (WMState × List XEff) :=
  if s.registry.isEmpty ∨ s.cycling = false then some (s, []) else
  let start := match s.focused with
    | some w => s.registry.findIdx (·.win == w)
    | none => 0
  match cycOuter s.registry s.current_workspace start forward (s.registry.length + 1) start with
  | none => none
  | some cIdx =>
    match s.registry[cIdx]? with
    | none => some (s, [])
    | some c =>
      if s.focused = some c.win then some (s, [])
      else
        let s1 := { s with focused := some c.win }
        some (s1, [XEff.raiseWin c.win, XEff.setInputFocus c.win] ++ update_borders s1)

/-! ## Swap (wm.c:1186-1267)

`swap_clients` splices two nodes of the doubly-linked registry; at the
list level the splice exchanges the positions of the two nodes and leaves
every other node in place.  The pointer-level splice itself is verified
separately (`Reg.swap_clients` below). -/

/-- `swap_clients` (wm.c:1186-1237) at the registry-list level, with the
guards of the source. -/
def swap_clients_list (cs : List CClient) (aWin bWin : Nat) : List CClient :=
  match find_client cs aWin, find_client cs bWin with
  | some a, some b =>
    if aWin = bWin then cs
    else if a.workspace ≠ b.workspace then cs
    else cs.map (fun c => if c.win = aWin then b else if c.win = bWin then a else c)
  | _, _ => cs

/-- `swap_clients_keep_focus` (wm.c:1242-1267). -/
def swap_clients_keep_focus (s : WMState) (aWin bWin : Nat) : WMState × List XEff :=
  match find_client s.registry aWin, find_client s.registry bWin with
  | some a, some b =>
    if aWin = bWin then (s, [])
    else if a.workspace ≠ b.workspace then (s, [])
    else if a.is_dock || b.is_dock then (s, [])
    else
      let s1 := { s with registry := swap_clients_list s.registry aWin bWin }
      let (s2, tileE) := if s1.tagTiling s1.current_workspace
        then tile_workspace_state s1 s1.current_workspace else (s1, [])
      let s3 := { s2 with reserved := update_global_struts s2.registry }
      let (s4, focusE) := focus_client_proper s3 aWin
      (s4, tileE ++ update_borders s3 ++ [XEff.writeOccupiedFile] ++ focusE)
  | _, _ => (s, [])

/-! ## ConfigureRequest handling (wm.c:1326-1357) -/

structure ConfReq where
  x : Int := 0
  y : Int := 0
  width : Nat := 0
  height : Nat := 0
deriving DecidableEq, Repr

/-- `handle_configurerequest` (wm.c:1326-1357).  `props` are the window's
current properties (read by the dock branch), `wa'` the attributes after
the granted configure (read back by the non-dock branch; `none` models a
failed query). -/
def handle_configurerequest (s : WMState) (win : Nat) (props : XProps) (req : ConfReq)
    (wa' : Option WinAttrs) : WMState × List XEff :=
  match find_client s.registry win with
  | some c =>
    if c.is_dock then
      let c1 := get_window_type_and_strut props c
      let c2 := apply_dock_geometry s.sw s.sh s.reserved c1
      let reg' := s.registry.map (fun cc => if cc.win = win then c2 else cc)
      let s1 := { s with registry := reg' }
      let s2 := { s1 with reserved := update_global_struts reg' }
      (s2, [XEff.moveResize win c2.x c2.y c2.w c2.h] ++ update_borders s2 ++
           [XEff.writeOccupiedFile])
    else
      let upd := match wa' with
        | none => (fun (cc : CClient) => cc)
        | some wa =>
            (fun (cc : CClient) =>
              let p := clamp_size s.sw s.sh wa.width wa.height
              { cc with x := wa.x, y := wa.y, w := p.1, h := p.2 })
      let reg' := s.registry.map (fun cc => if cc.win = win then upd cc else cc)
      ({ s with registry := reg' },
       [XEff.moveResize win req.x req.y req.width req.height])
  | none => (s, [XEff.moveResize win req.x req.y req.width req.height])

/-! ## Invariants -/

/-- The focus invariant: a non-null focus refers to a registry member
that is not a dock and is on the current workspace. -/
def focusInvB (s : WMState) : Bool :=
  match s.focused with
  | none => true
  | some w => s.registry.any (fun c => c.win == w && !c.is_dock && c.workspace == s.current_workspace)

/-- Registry well-formedness: distinct window handles, docks tagged -1,
current workspace in range. -/
def wfState (s : WMState) : Prop :=
  (s.registry.map (·.win)).Nodup ∧
  (∀ c ∈ s.registry, c.is_dock = true → c.workspace = -1) ∧
  0 ≤ s.current_workspace ∧ s.current_workspace < MAX_WORKSPACES

/-! ## The pointer-level registry and `swap_clients` (wm.c:1186-1237)

For the swap splice the doubly-linked list is modelled at the pointer
level: a heap of nodes addressed by client id, each holding its `prev`
and `next` pointers (`Option` models NULL) and its workspace tag, plus
the `clients` head pointer. -/

namespace Reg

structure Node where
  prev : Option Nat
  next : Option Nat
  workspace : Int
deriving DecidableEq, Repr

/-- The globals `clients` (head pointer) and the node heap. -/
structure State where
  head : Option Nat
  st : Nat → Node

/-- Pointer write `st i <- f (st i)`. -/
def wr (st : Nat → Node) (i : Nat) (f : Node → Node) : Nat → Node :=
  fun j => if j = i then f (st j) else st j

/-- Optional pointer write: `if (p) p-> ... = v`. -/
def wrOpt (st : Nat → Node) (i : Option Nat) (f : Node → Node) : Nat → Node :=
  match i with
  | none => st
  | some i => wr st i f

/-- `swap_clients` (wm.c:1186-1237): the exact pointer splice, with its
three cases (`a` just before `b`, `b` just before `a`, non-adjacent) and
the head update. -/
def swap_clients (r : State) (a b : Nat) : State :=
  if a = b then r else
  if (r.st a).workspace ≠ (r.st b).workspace then r else
  let aPrev := (r.st a).prev
  let aNext := (r.st a).next
  let bPrev := (r.st b).prev
  let bNext := (r.st b).next
  let aWasHead := r.head = some a
  let bWasHead := r.head = some b
  let st' :=
    if aNext = some b then
      let s1 := wrOpt r.st aPrev (fun nd => { nd with next := some b })
      let s2 := wr s1 b (fun nd => { nd with prev := aPrev })
      let s3 := wr s2 a (fun nd => { nd with next := bNext })
      let s4 := wrOpt s3 bNext (fun nd => { nd with prev := some a })
      let s5 := wr s4 b (fun nd => { nd with next := some a })
      wr s5 a (fun nd => { nd with prev := some b })
    else if bNext = some a then
      let s1 := wrOpt r.st bPrev (fun nd => { nd with next := some a })
      let s2 := wr s1 a (fun nd => { nd with prev := bPrev })
      let s3 := wr s2 b (fun nd => { nd with next := aNext })
      let s4 := wrOpt s3 aNext (fun nd => { nd with prev := some b })
      let s5 := wr s4 a (fun nd => { nd with next := some b })
      wr s5 b (fun nd => { nd with prev := some a })
    else
      let s1 := wrOpt r.st aPrev (fun nd => { nd with next := some b })
      let s2 := wrOpt s1 aNext (fun nd => { nd with prev := some b })
      let s3 := wrOpt s2 bPrev (fun nd => { nd with next := some a })
      let s4 := wrOpt s3 bNext (fun nd => { nd with prev := some a })
      let s5 := wr s4 a (fun nd => { nd with prev := bPrev, next := bNext })
      wr s5 b (fun nd => { nd with prev := aPrev, next := aNext })
  let head' := if aWasHead then some b else if bWasHead then some a else r.head
  { head := head', st := st' }

/-- The element following `a` in `xs`. -/
def listNext : List Nat → Nat → Option Nat
  | [], _ => none
  | [x], a => if a = x then none else none
  | x :: y :: rest, a => if a = x then some y else listNext (y :: rest) a

/-- The element preceding `a` in `xs`, given the element before the
current head. -/
def listPrevAux (p : Option Nat) : List Nat → Nat → Option Nat
  | [], _ => none
  | x :: rest, a => if a = x then p else listPrevAux (some x) rest a

def listPrev (xs : List Nat) (a : Nat) : Option Nat := listPrevAux none xs a

/-- The heap `st` holds exactly the doubly-linked chain `xs` starting
after the external predecessor `p`. -/
def chainB (st : Nat → Node) : Option Nat → List Nat → Bool
  | _, [] => true
  | p, i :: rest =>
      ((st i).prev == p) && ((st i).next == rest.head?) && chainB st (some i) rest

/-- The registry state represents the id list `xs`: correct head pointer,
a well-formed chain, and no duplicate ids. -/
def represents (r : State) (xs : List Nat) : Prop :=
  r.head = xs.head? ∧ chainB r.st none xs = true ∧ xs.Nodup

/-- The transposition of `a` and `b`. -/
def swapFun (a b : Nat) (i : Nat) : Nat := if i = a then b else if i = b then a else i

/-- The list with the positions of `a` and `b` exchanged. -/
def exchange (xs : List Nat) (a b : Nat) : List Nat := xs.map (swapFun a b)

end Reg

/-! # Lemmas and theorems -/

/-! ## Values of the compile-time constants -/

@[simp] theorem gap_inner_eq : gap_inner = 8 := rfl
@[simp] theorem gap_outer_eq : gap_outer = 24 := rfl
@[simp] theorem factor_eq : DEFAULT_MASTER_FACTOR = 60 := rfl
@[simp] theorem minw_eq : MIN_WIN_W = 32 := rfl
@[simp] theorem minh_eq : MIN_WIN_H = 24 := rfl
@[simp] theorem bpx_eq : BORDER_PX_UNFOCUSED = 12 := rfl
@[simp] theorem maxws_eq : MAX_WORKSPACES = 9 := rfl
@[simp] theorem eo_eq : effective_outer = 36 := rfl
@[simp] theorem minw_int : ((MIN_WIN_W : Nat) : Int) = 32 := rfl
@[simp] theorem minh_int : ((MIN_WIN_H : Nat) : Int) = 24 := rfl
@[simp] theorem bpx_int : ((BORDER_PX_UNFOCUSED : Nat) : Int) = 12 := rfl
@[simp] theorem bpx2_int : 2 * ((BORDER_PX_UNFOCUSED : Nat) : Int) = 24 := rfl

/-! ## Arithmetic helpers -/

theorem toU32_toNat (v : Int) (h0 : 0 ≤ v) (h1 : v < 4294967296) : toU32 v = v.toNat := by
  unfold toU32; rw [Int.emod_eq_of_lt h0 h1]

theorem clamp_size_id (sw sh w h : Nat) (h1 : 32 ≤ w) (h2 : w ≤ maxDim sw)
    (h3 : 24 ≤ h) (h4 : h ≤ maxDim sh) : clamp_size sw sh w h = (w, h) := by
  simp only [clamp_size, minw_eq, minh_eq]
  congr 1 <;> (split_ifs <;> omega)

theorem clampedRect_eq (sw sh : Nat) (x y wI hI : Int)
    (hw1 : 32 ≤ wI) (hw2 : wI ≤ (maxDim sw : Int))
    (hh1 : 24 ≤ hI) (hh2 : hI ≤ (maxDim sh : Int))
    (hsw : maxDim sw < 4294967296) (hsh : maxDim sh < 4294967296) :
    clampedRect sw sh x y wI hI = ⟨x, y, wI.toNat, hI.toNat⟩ := by
  unfold clampedRect
  rw [toU32_toNat wI (by omega) (by omega), toU32_toNat hI (by omega) (by omega),
      clamp_size_id sw sh _ _ (by omega) (by omega) (by omega) (by omega)]

theorem maxDim_lt (s : Nat) (h : s ≤ 2147483647) : maxDim s < 4294967296 := by
  simp only [maxDim]; omega

/-- Division facts for `cdiv` with nonnegative operands. -/
theorem cdiv_facts (d k : Int) (hd : 0 ≤ d) (hk : 0 < k) :
    k * cdiv d k ≤ d ∧ d < k * (cdiv d k) + k := by
  unfold cdiv
  rw [Int.tdiv_eq_ediv hd (by omega)]
  have h1 := Int.ediv_add_emod d k
  have h2 := Int.emod_nonneg d (by omega : k ≠ 0)
  have h3 := Int.emod_lt_of_pos d hk
  omega

/-! ## The master/stack layout under clamp-free conditions -/

/-- Under `masterOk`, the master/stack placement is exactly the
unclamped formula. -/
theorem masterRects_norm (sw sh : Nat) (ox oy aw ah : Int) (n : Nat)
    (hok : masterOk sw sh aw ah n)
    (hsw : maxDim sw < 4294967296) (hsh : maxDim sh < 4294967296) :
    masterRects sw sh ox oy aw ah n =
      (⟨ox, oy, (cdiv (aw * 60) 100 - 24).toNat, (ah - 24).toNat⟩ : Rect) ::
      (List.range (n - 1)).map (fun (i : Nat) =>
        (⟨ox + cdiv (aw * 60) 100 + 8,
          oy + (i : Int) * (cdiv (ah - ((n : Int) - 1 - 1) * 8) ((n : Int) - 1) + 8),
          (aw - cdiv (aw * 60) 100 - 8 - 24).toNat,
          ((if (i : Int) = (n : Int) - 1 - 1
            then ah - (cdiv (ah - ((n : Int) - 1 - 1) * 8) ((n : Int) - 1) + 8) *
                   ((n : Int) - 1 - 1)
            else cdiv (ah - ((n : Int) - 1 - 1) * 8) ((n : Int) - 1)) - 24).toNat⟩ : Rect)) := by
  obtain ⟨hn, h1, h2, h3, h4, h5, h6, h7, h8, h9, h10, h11⟩ := hok
  simp only [gap_inner_eq, factor_eq] at h1 h2 h3 h4 h5 h6 h7 h8 h9 h10 h11
  have hk : (0 : Int) < (n : Int) - 1 := by omega
  have hse : stackEachH ah ((n : Int) - 1) =
      cdiv (ah - ((n : Int) - 1 - 1) * 8) ((n : Int) - 1) := by
    unfold stackEachH
    rw [if_pos hk, if_pos hk]; simp only [gap_inner_eq]
  have hmw : masterW aw = cdiv (aw * 60) 100 := by
    unfold masterW
    simp only [factor_eq, minw_int]
    rw [if_neg (by omega)]
  have hstw : stackW aw = aw - cdiv (aw * 60) 100 - 8 := by
    unfold stackW
    rw [hmw]
    simp only [gap_inner_eq, minw_int]
    rw [if_neg (by omega)]
  simp only [masterRects, hmw, hstw, hse, gap_inner_eq, factor_eq, bpx2_int]
  congr 1
  · exact clampedRect_eq sw sh ox oy _ _ (by omega) (by omega) (by omega) (by omega) hsw hsh
  · apply List.map_congr_left
    intro i hi
    rw [List.mem_range] at hi
    by_cases hcase : (i : Int) = (n : Int) - 1 - 1
    · rw [if_pos hcase]
      exact clampedRect_eq sw sh _ _ _ _ (by omega) (by omega) (by omega) (by omega) hsw hsh
    · rw [if_neg hcase]
      exact clampedRect_eq sw sh _ _ _ _ (by omega) (by omega) (by omega) (by omega) hsw hsh

/-- Containment and disjointness of the master/stack placement. -/
theorem master_inavail_disjoint (sw sh : Nat) (ox oy aw ah : Int) (n : Nat)
    (hok : masterOk sw sh aw ah n)
    (hsw : maxDim sw < 4294967296) (hsh : maxDim sh < 4294967296) :
    (∀ r ∈ masterRects sw sh ox oy aw ah n, InAvail ox oy aw ah r) ∧
    (masterRects sw sh ox oy aw ah n).Pairwise FramesDisjoint := by
  have hnorm := masterRects_norm sw sh ox oy aw ah n hok hsw hsh
  obtain ⟨hn, h1, h2, h3, h4, h5, h6, h7, h8, h9, h10, h11⟩ := hok
  simp only [gap_inner_eq, factor_eq] at h1 h2 h3 h4 h5 h6 h7 h8 h9 h10 h11
  rw [hnorm]
  set mw := cdiv (aw * 60) 100 with hmwdef
  set se := cdiv (ah - ((n : Int) - 1 - 1) * 8) ((n : Int) - 1) with hsedef
  set K : Int := (n : Int) - 1 with hKdef
  have hcastw : (((aw - mw - 8 - 24).toNat : Nat) : Int) = aw - mw - 8 - 24 := by omega
  have hcastmw : (((mw - 24).toNat : Nat) : Int) = mw - 24 := by omega
  have hcastah : (((ah - 24).toNat : Nat) : Int) = ah - 24 := by omega
  have hcastse : (((se - 24).toNat : Nat) : Int) = se - 24 := by omega
  have hcastlast : (((ah - (se + 8) * (K - 1) - 24).toNat : Nat) : Int) =
      ah - (se + 8) * (K - 1) - 24 := by omega
  have hScomm : ∀ t : Int, (se + 8) * t = t * (se + 8) := fun t => mul_comm _ t
  have hlastK : 48 ≤ ah - (K - 1) * (se + 8) := by rw [← hScomm]; omega
  constructor
  · intro r hr
    rcases List.mem_cons.1 hr with rfl | hr
    · refine ⟨le_refl _, le_refl _, ?_, ?_⟩ <;>
        (simp only [frameW, frameH, bpx2_int, hcastmw, hcastah]; omega)
    · obtain ⟨i, hi, rfl⟩ := List.mem_map.1 hr
      rw [List.mem_range] at hi
      have hiK : (i : Int) ≤ K - 1 := by omega
      have hi0 : 0 ≤ (i : Int) * (se + 8) := mul_nonneg (by positivity) (by omega)
      refine ⟨?_, ?_, ?_, ?_⟩
      · simp only; omega
      · simp only; linarith
      · simp only [frameW, bpx2_int, hcastw]; omega
      · simp only [frameH, bpx2_int]
        by_cases hcase : (i : Int) = K - 1
        · rw [if_pos hcase, hcastlast, hcase, hScomm]
          linarith
        · rw [if_neg hcase, hcastse]
          have hiK2 : (i : Int) + 1 ≤ K - 1 := by omega
          have hmul : ((i : Int) + 1) * (se + 8) ≤ (K - 1) * (se + 8) :=
            mul_le_mul_of_nonneg_right hiK2 (by omega)
          have hexp : ((i : Int) + 1) * (se + 8) = (i : Int) * (se + 8) + (se + 8) := by ring
          linarith [hlastK]
  · rw [List.pairwise_cons]
    constructor
    · intro r hr
      obtain ⟨i, hi, rfl⟩ := List.mem_map.1 hr
      refine Or.inl ?_
      simp only [frameW, bpx2_int, hcastmw]
      omega
    · rw [List.pairwise_map, List.pairwise_iff_getElem]
      intro i j hi hj hij
      simp only [List.getElem_range]
      rw [List.length_range] at hi hj
      have hij' : (i : Int) + 1 ≤ (j : Int) := by omega
      have hiK : (i : Int) ≠ K - 1 := by omega
      refine Or.inr (Or.inr (Or.inl ?_))
      simp only [frameH, bpx2_int]
      rw [if_neg hiK, hcastse]
      have hmul : ((i : Int) + 1) * (se + 8) ≤ (j : Int) * (se + 8) :=
        mul_le_mul_of_nonneg_right hij' (by omega)
      have hexp : ((i : Int) + 1) * (se + 8) = (i : Int) * (se + 8) + (se + 8) := by ring
      linarith

/-! ## The dwindle layout under clamp-free conditions -/

/-- Containment and disjointness of the dwindle placement, by induction
on the spiral. -/
theorem dwindle_inavail_disjoint (sw sh : Nat)
    (hsw : maxDim sw < 4294967296) (hsh : maxDim sh < 4294967296) :
    ∀ (n : Nat) (x y w h : Int) (horiz : Bool),
    dwindleOk sw sh n w h horiz = true →
    (∀ r ∈ dwindle_tile sw sh n x y w h horiz, InAvail x y w h r) ∧
    (dwindle_tile sw sh n x y w h horiz).Pairwise FramesDisjoint := by
  intro n
  induction n using Nat.strong_induction_on with
  | _ n ih =>
  rcases n with _ | n'
  · intro x y w h horiz _
    simp [dwindle_tile]
  rcases n' with _ | m
  · intro x y w h horiz hok
    simp only [dwindleOk, Bool.and_eq_true, decide_eq_true_eq] at hok
    obtain ⟨⟨⟨hw1, hw2⟩, hh1⟩, hh2⟩ := hok
    simp only [dwindle_tile, bpx2_int]
    have hf1 : floor1 (w - 24) = w - 24 := by unfold floor1; rw [if_neg (by omega)]
    have hf2 : floor1 (h - 24) = h - 24 := by unfold floor1; rw [if_neg (by omega)]
    rw [hf1, hf2,
        clampedRect_eq sw sh x y _ _ (by omega) (by omega) (by omega) (by omega) hsw hsh]
    constructor
    · intro r hr
      rw [List.mem_singleton] at hr
      subst hr
      exact ⟨le_refl _, le_refl _, by simp only [frameW, bpx2_int]; omega,
             by simp only [frameH, bpx2_int]; omega⟩
    · exact List.pairwise_singleton _ _
  · intro x y w h horiz hok
    cases horiz with
    | false =>
      simp only [dwindleOk, Bool.and_eq_true, decide_eq_true_eq,
        gap_inner_eq, factor_eq] at hok
      obtain ⟨⟨⟨⟨⟨ha1, ha2⟩, ha3⟩, hh1⟩, hh2⟩, hrec⟩ := hok
      have hIH := ih (m + 1) (by omega) (x + cdiv (w * 60) 100 + 8) y
        (w - cdiv (w * 60) 100 - 8) h true hrec
      simp only [dwindle_tile, gap_inner_eq, factor_eq,
        minw_int, bpx2_int]
      split_ifs with h1 h2 h3
      all_goals try (exfalso; omega)
      have hf1 : floor1 (cdiv (w * 60) 100 - 24) = cdiv (w * 60) 100 - 24 := by
        unfold floor1; rw [if_neg (by omega)]
      have hf2 : floor1 (h - 24) = h - 24 := by unfold floor1; rw [if_neg (by omega)]
      rw [hf1, hf2,
          clampedRect_eq sw sh x y _ _ (by omega) (by omega) (by omega) (by omega) hsw hsh]
      constructor
      · intro r hr
        rcases List.mem_cons.1 hr with rfl | hr
        · exact ⟨le_refl _, le_refl _, by simp only [frameW, bpx2_int]; omega,
                 by simp only [frameH, bpx2_int]; omega⟩
        · obtain ⟨hx1, hy1, hx2, hy2⟩ := hIH.1 r hr
          exact ⟨by omega, hy1, by omega, hy2⟩
      · rw [List.pairwise_cons]
        refine ⟨?_, hIH.2⟩
        intro r hr
        obtain ⟨hx1, _, _, _⟩ := hIH.1 r hr
        refine Or.inl ?_
        simp only [frameW, bpx2_int]
        omega
    | true =>
      simp only [dwindleOk, Bool.and_eq_true, decide_eq_true_eq,
        gap_inner_eq, factor_eq] at hok
      obtain ⟨⟨⟨⟨⟨ha1, ha2⟩, ha3⟩, hw1⟩, hw2⟩, hrec⟩ := hok
      have hIH := ih (m + 1) (by omega) x (y + cdiv (h * 60) 100 + 8) w
        (h - cdiv (h * 60) 100 - 8) false hrec
      simp only [dwindle_tile, gap_inner_eq, factor_eq, minh_int, bpx2_int]
      split_ifs with h1 h2 h3
      all_goals try (exfalso; omega)
      have hf1 : floor1 (w - 24) = w - 24 := by unfold floor1; rw [if_neg (by omega)]
      have hf2 : floor1 (cdiv (h * 60) 100 - 24) = cdiv (h * 60) 100 - 24 := by
        unfold floor1; rw [if_neg (by omega)]
      rw [hf1, hf2,
          clampedRect_eq sw sh x y _ _ (by omega) (by omega) (by omega) (by omega) hsw hsh]
      constructor
      · intro r hr
        rcases List.mem_cons.1 hr with rfl | hr
        · exact ⟨le_refl _, le_refl _, by simp only [frameW, bpx2_int]; omega,
                 by simp only [frameH, bpx2_int]; omega⟩
        · obtain ⟨hx1, hy1, hx2, hy2⟩ := hIH.1 r hr
          exact ⟨hx1, by omega, hx2, by omega⟩
      · rw [List.pairwise_cons]
        refine ⟨?_, hIH.2⟩
        intro r hr
        obtain ⟨_, hy1, _, _⟩ := hIH.1 r hr
        refine Or.inr (Or.inr (Or.inl ?_))
        simp only [frameH, bpx2_int]
        omega

/-! ## Claim C1 -/

/-- C1 (amended): for a workspace with `n ≥ 1` clients, in either layout,
provided no `MIN_WIN_*`/95% clamp fires during the computation
(`tileOk`), every placed client's frame (geometry plus the border of
width 12 on each side) lies within the available rectangle (screen minus
`2*(gap_outer+border)` and the reserved dock margins), and no two placed
frames overlap. -/
theorem C1_amended_tile_frames_in_avail_and_disjoint (sw sh : Nat) (rl rr rt rb : Int)
    (layout n : Nat) (hn : 1 ≤ n) (hok : tileOk sw sh rl rr rt rb layout n) :
    (∀ r ∈ tile_workspace sw sh rl rr rt rb layout n,
        InAvail (originX rl) (originY rt) (avail_w0 sw rl rr) (avail_h0 sh rt rb) r) ∧
    (tile_workspace sw sh rl rr rt rb layout n).Pairwise FramesDisjoint := by
  obtain ⟨hsw, hsh, haw, hah, hsingle, hmaster, hdwin⟩ := hok
  have hswlt := maxDim_lt sw hsw
  have hshlt := maxDim_lt sh hsh
  have hW : availW sw rl rr = avail_w0 sw rl rr := by
    unfold availW; rw [if_neg]; simp only [minw_int]; omega
  have hH : availH sh rt rb = avail_h0 sh rt rb := by
    unfold availH; rw [if_neg]; simp only [minh_int]; omega
  simp only [tile_workspace, hW, hH]
  rw [if_neg (by omega : ¬ n = 0)]
  by_cases h1 : n = 1
  · rw [if_pos h1]
    obtain ⟨s1, s2, s3, s4⟩ := hsingle (by omega)
    simp only [bpx2_int]
    rw [clampedRect_eq sw sh _ _ _ _ (by omega) (by omega) (by omega) (by omega) hswlt hshlt]
    constructor
    · intro r hr
      rw [List.mem_singleton] at hr
      subst hr
      exact ⟨le_refl _, le_refl _, by simp only [frameW, bpx2_int]; omega,
             by simp only [frameH, bpx2_int]; omega⟩
    · exact List.pairwise_singleton _ _
  · rw [if_neg h1]
    by_cases hl : layout = 0
    · rw [if_pos hl]
      exact master_inavail_disjoint sw sh _ _ _ _ n (hmaster (by omega) hl) hswlt hshlt
    · rw [if_neg hl]
      exact dwindle_inavail_disjoint sw sh hswlt hshlt n _ _ _ _ false (hdwin (by omega) hl)

/-- C1 (counterexample to the claim as stated): on a 1000x800 screen with
no docks, master layout and 21 clients, the geometries assigned to the
first and second stack clients have overlapping frames (their heights
were raised to `MIN_WIN_H` by `clamp_size`). -/
theorem C1_counterexample :
    ((tile_workspace 1000 800 0 0 0 0 0 21)[1]? = some ⟨600, 36, 340, 24⟩) ∧
    ((tile_workspace 1000 800 0 0 0 0 0 21)[2]? = some ⟨600, 72, 340, 24⟩) ∧
    ¬ FramesDisjoint ⟨600, 36, 340, 24⟩ ⟨600, 72, 340, 24⟩ := by
  refine ⟨by decide, by decide, by decide⟩

/-- C1 (witness): the amended theorem applied to a 1000x800 screen,
dwindle layout, three clients. -/
theorem C1_witness :
    (1 ≤ 3 ∧ tileOk 1000 800 0 0 0 0 1 3) ∧
    ((∀ r ∈ tile_workspace 1000 800 0 0 0 0 1 3,
        InAvail (originX 0) (originY 0) (avail_w0 1000 0 0) (avail_h0 800 0 0) r) ∧
     (tile_workspace 1000 800 0 0 0 0 1 3).Pairwise FramesDisjoint) :=
  ⟨⟨by omega, by decide⟩,
   C1_amended_tile_frames_in_avail_and_disjoint 1000 800 0 0 0 0 1 3 (by omega) (by decide)⟩

/-! ## Claim C2 -/

/-- C2 (amended): in master layout with `n ≥ 2` clients, provided no
clamp fires (`tileOk`), the head-of-workspace client's width is
`floor(avail_w * MASTER_FACTOR / 100) - 2b`, every stack client except
the last has height `floor((avail_h - (n_stack - 1) * gap_inner) /
n_stack) - 2b` (`n_stack = n - 1`), and the last stack client's frame
bottom equals the available rectangle's bottom edge exactly. -/
theorem C2_amended_master_dimensions (sw sh : Nat) (rl rr rt rb : Int) (n : Nat)
    (hn : 2 ≤ n) (hok : tileOk sw sh rl rr rt rb 0 n) :
    (∀ r, (tile_workspace sw sh rl rr rt rb 0 n)[0]? = some r →
        (r.w : Int) = cdiv (avail_w0 sw rl rr * 60) 100 - 2 * 12) ∧
    (∀ i r, 1 ≤ i → i < n - 1 → (tile_workspace sw sh rl rr rt rb 0 n)[i]? = some r →
        (r.h : Int) =
          cdiv (avail_h0 sh rt rb - ((n : Int) - 1 - 1) * 8) ((n : Int) - 1) - 2 * 12) ∧
    (∀ r, (tile_workspace sw sh rl rr rt rb 0 n)[n - 1]? = some r →
        r.y + (r.h : Int) + 2 * 12 = originY rt + avail_h0 sh rt rb) := by
  obtain ⟨hsw, hsh, haw, hah, hsingle, hmaster, hdwin⟩ := hok
  have hok' := hmaster hn rfl
  have hswlt := maxDim_lt sw hsw
  have hshlt := maxDim_lt sh hsh
  have hW : availW sw rl rr = avail_w0 sw rl rr := by
    unfold availW; rw [if_neg]; simp only [minw_int]; omega
  have hH : availH sh rt rb = avail_h0 sh rt rb := by
    unfold availH; rw [if_neg]; simp only [minh_int]; omega
  have hnorm := masterRects_norm sw sh (originX rl) (originY rt)
    (avail_w0 sw rl rr) (avail_h0 sh rt rb) n hok' hswlt hshlt
  obtain ⟨hn', h1, h2, h3, h4, h5, h6, h7, h8, h9, h10, h11⟩ := hok'
  simp only [gap_inner_eq, factor_eq] at h1 h2 h3 h4 h5 h6 h7 h8 h9 h10 h11
  have hT : tile_workspace sw sh rl rr rt rb 0 n =
      masterRects sw sh (originX rl) (originY rt)
        (avail_w0 sw rl rr) (avail_h0 sh rt rb) n := by
    simp only [tile_workspace, hW, hH]
    rw [if_neg (by omega : ¬ n = 0), if_neg (by omega : ¬ n = 1), if_pos trivial]
  rw [hT, hnorm]
  set aw := avail_w0 sw rl rr
  set ah := avail_h0 sh rt rb
  set mw := cdiv (aw * 60) 100 with hmwdef
  set se := cdiv (ah - ((n : Int) - 1 - 1) * 8) ((n : Int) - 1) with hsedef
  refine ⟨?_, ?_, ?_⟩
  · intro r hr
    rw [List.getElem?_cons_zero] at hr
    injection hr with hr
    subst hr
    simp only
    omega
  · intro i r hi1 hi2 hr
    obtain ⟨j, rfl⟩ : ∃ j, i = j + 1 := ⟨i - 1, by omega⟩
    rw [List.getElem?_cons_succ, List.getElem?_map,
        List.getElem?_range (by omega : j < n - 1), Option.map_some'] at hr
    injection hr with hr
    subst hr
    simp only
    rw [if_neg (by omega : ¬ (j : Int) = (n : Int) - 1 - 1)]
    omega
  · intro r hr
    obtain ⟨j, hj⟩ : ∃ j, n - 1 = j + 1 := ⟨n - 2, by omega⟩
    rw [hj, List.getElem?_cons_succ, List.getElem?_map,
        List.getElem?_range (Nat.lt_succ_self j), Option.map_some'] at hr
    injection hr with hr
    subst hr
    simp only
    have hjval : (j : Int) = (n : Int) - 1 - 1 := by omega
    rw [if_pos hjval, hjval]
    have hcast : (((ah - (se + 8) * ((n : Int) - 1 - 1) - 24).toNat : Nat) : Int) =
        ah - (se + 8) * ((n : Int) - 1 - 1) - 24 := by omega
    rw [hcast]
    ring

/-- C2 (counterexample to the claim as stated): on a 1000x800 screen with
21 clients in master layout, the first stack client's height is 24 (raised
by `clamp_size` from 4), not the claimed
`floor((avail_h - (n_stack-1)*gap_inner)/n_stack) - 2b = 4`. -/
theorem C2_counterexample :
    ((tile_workspace 1000 800 0 0 0 0 0 21)[1]? = some ⟨600, 36, 340, 24⟩) ∧
    (((⟨600, 36, 340, 24⟩ : Rect).h : Int) ≠
      cdiv (avail_h0 800 0 0 - ((21 : Int) - 1 - 1) * 8) ((21 : Int) - 1) - 2 * 12) := by
  refine ⟨by decide, by decide⟩

/-- C2 (witness): the amended theorem applied to a 1000x800 screen,
master layout, three clients. -/
theorem C2_witness :
    (2 ≤ 3 ∧ tileOk 1000 800 0 0 0 0 0 3) ∧
    ((∀ r, (tile_workspace 1000 800 0 0 0 0 0 3)[0]? = some r →
        (r.w : Int) = cdiv (avail_w0 1000 0 0 * 60) 100 - 2 * 12) ∧
     (∀ i r, 1 ≤ i → i < 3 - 1 → (tile_workspace 1000 800 0 0 0 0 0 3)[i]? = some r →
        (r.h : Int) =
          cdiv (avail_h0 800 0 0 - ((3 : Int) - 1 - 1) * 8) ((3 : Int) - 1) - 2 * 12) ∧
     (∀ r, (tile_workspace 1000 800 0 0 0 0 0 3)[3 - 1]? = some r →
        r.y + (r.h : Int) + 2 * 12 = originY 0 + avail_h0 800 0 0)) :=
  ⟨⟨by omega, by decide⟩,
   C2_amended_master_dimensions 1000 800 0 0 0 0 3 (by omega) (by decide)⟩

/-! ## Claim C4 -/

theorem readWindowType_is_dock (ta : Option (List Nat)) (c : CClient) :
    (readWindowType ta c).is_dock = true ↔
      (c.is_dock = true ∨ ∃ atoms, ta = some atoms ∧ NET_WM_WINDOW_TYPE_DOCK_ATOM ∈ atoms) := by
  rcases ta with _ | atoms
  · simp [readWindowType]
  · simp only [readWindowType]
    by_cases hD : atoms.any (· = NET_WM_WINDOW_TYPE_DOCK_ATOM) = true
    · rw [if_pos hD]
      simp only [List.any_eq_true, decide_eq_true_eq] at hD
      obtain ⟨a, ha, rfl⟩ := hD
      exact iff_of_true rfl (Or.inr ⟨atoms, rfl, ha⟩)
    · rw [if_neg hD]
      simp only [List.any_eq_true, decide_eq_true_eq] at hD
      push_neg at hD
      constructor
      · intro h; exact Or.inl h
      · rintro (h | ⟨atoms2, heq, hmem⟩)
        · exact h
        · injection heq with heq
          subst heq
          exact absurd rfl (hD _ hmem)

theorem readStrutPartial_is_dock (sv : Option (List Nat)) (c : CClient) :
    (readStrutPartial sv c).is_dock = true ↔
      (c.is_dock = true ∨ ∃ vals, sv = some vals ∧ 12 ≤ vals.length ∧
        (vals.getD 0 0 ≠ 0 ∨ vals.getD 1 0 ≠ 0 ∨ vals.getD 2 0 ≠ 0 ∨ vals.getD 3 0 ≠ 0)) := by
  rcases sv with _ | vals
  · simp [readStrutPartial]
  · simp only [readStrutPartial, Option.some_inj]
    by_cases h12 : 12 ≤ vals.length
    · obtain ⟨v0, v1, v2, v3, rest, rfl⟩ :
          ∃ v0 v1 v2 v3 rest, vals = v0 :: v1 :: v2 :: v3 :: rest := by
        rcases vals with _ | ⟨v0, _ | ⟨v1, _ | ⟨v2, _ | ⟨v3, rest⟩⟩⟩⟩ <;>
          first
            | exact ⟨v0, v1, v2, v3, rest, rfl⟩
            | simp at h12
      rw [List.length_cons, List.length_cons, List.length_cons, List.length_cons] at h12
      have hlen8 : 8 ≤ rest.length := by omega
      have hTake : (v0 :: v1 :: v2 :: v3 :: rest).take 12 =
          v0 :: v1 :: v2 :: v3 :: rest.take 8 := rfl
      have hTlen : (v0 :: v1 :: v2 :: v3 :: rest.take 8).length = 12 := by
        simp only [List.length_cons, List.length_take]
        omega
      rw [hTake, hTlen, if_pos (by omega : 4 ≤ 12), if_pos (le_refl 12)]
      simp only [List.getD_cons_zero, List.getD_cons_succ]
      by_cases hnz : v0 ≠ 0 ∨ v1 ≠ 0 ∨ v2 ≠ 0 ∨ v3 ≠ 0
      · rw [if_pos hnz]
        refine iff_of_true rfl (Or.inr ⟨v0 :: v1 :: v2 :: v3 :: rest, rfl, ?_, ?_⟩)
        · simp only [List.length_cons]; omega
        · simpa only [List.getD_cons_zero, List.getD_cons_succ] using hnz
      · rw [if_neg hnz]
        push_neg at hnz
        obtain ⟨e0, e1, e2, e3⟩ := hnz
        show c.is_dock = true ↔ _
        constructor
        · intro h; exact Or.inl h
        · rintro (h | ⟨vals2, heq, _, hnz2⟩)
          · exact h
          · subst heq
            simp only [List.getD_cons_zero, List.getD_cons_succ] at hnz2
            rcases hnz2 with h | h | h | h <;> omega
    · rw [if_neg (by rw [List.length_take]; omega : ¬ 12 ≤ (vals.take 12).length)]
      constructor
      · intro h
        refine Or.inl ?_
        by_cases h4 : 4 ≤ (vals.take 12).length
        · rw [if_pos h4] at h; exact h
        · rw [if_neg h4] at h; exact h
      · rintro (h | ⟨vals2, heq, hlen, _⟩)
        · by_cases h4 : 4 ≤ (vals.take 12).length
          · rw [if_pos h4]; exact h
          · rw [if_neg h4]; exact h
        · subst heq
          omega

/-- C4 (amended): at manage time, a window is classified as a dock iff its
`_NET_WM_WINDOW_TYPE` contains the dock atom, or its
`_NET_WM_STRUT_PARTIAL` property supplies at least 12 cardinals and one of
the four primary strut sizes is non-zero.  (A strut property with fewer
than 12 cardinals never classifies the window as a dock, even with a
non-zero primary size.) -/
theorem C4_amended_dock_classification (p : XProps) (c : CClient) :
    (get_window_type_and_strut p c).is_dock = true ↔
      ((∃ atoms, p.typeAtoms = some atoms ∧ NET_WM_WINDOW_TYPE_DOCK_ATOM ∈ atoms) ∨
       (∃ vals, p.strutVals = some vals ∧ 12 ≤ vals.length ∧
          (vals.getD 0 0 ≠ 0 ∨ vals.getD 1 0 ≠ 0 ∨ vals.getD 2 0 ≠ 0 ∨ vals.getD 3 0 ≠ 0))) := by
  unfold get_window_type_and_strut
  rw [readStrutPartial_is_dock, readWindowType_is_dock]
  have hreset : (resetStruts c).is_dock = false := rfl
  rw [hreset]
  simp only [Bool.false_eq_true, false_or]

/-- C4 (counterexample to the claim as stated): a window whose strut
property carries only the four primary cardinals `[30, 0, 0, 0]` (a
non-zero left strut) and no dock window type is not classified as a dock,
although the claim says a non-zero primary strut size alone suffices. -/
theorem C4_counterexample :
    (get_window_type_and_strut ⟨none, some [30, 0, 0, 0]⟩ { win := 1 }).strut_left = 30 ∧
    (get_window_type_and_strut ⟨none, some [30, 0, 0, 0]⟩ { win := 1 }).is_dock = false := by
  refine ⟨by decide, by decide⟩

/-! ## Claim C8 -/

/-- Looking up a window after replacing its registry entry. -/
theorem find_client_map_replace (cs : List CClient) (win : Nat) (c d : CClient)
    (hfind : find_client cs win = some c) (hd : d.win = win) :
    find_client (cs.map (fun cc => if cc.win = win then d else cc)) win = some d := by
  induction cs with
  | nil => simp [find_client] at hfind
  | cons a tl ih =>
    by_cases ha : a.win = win
    · simp only [List.map_cons, if_pos ha]
      unfold find_client
      rw [List.find?_cons_of_pos _ (by simp [hd])]
    · simp only [List.map_cons, if_neg ha]
      unfold find_client at hfind ⊢
      rw [List.find?_cons_of_neg _ (by simp [ha])] at hfind
      rw [List.find?_cons_of_neg _ (by simp [ha])]
      exact ih hfind

/-- The strut-derived geometry depends only on the strut fields (besides
the screen size and reserved margins it takes as arguments). -/
theorem dock_geometry_only_struts (sw sh : Nat) (rv : Reserved) (c c' : CClient)
    (h : strutsOf c' = strutsOf c) :
    dock_geometry_from_struts sw sh rv c' = dock_geometry_from_struts sw sh rv c := by
  simp only [strutsOf, List.cons.injEq, and_true] at h
  obtain ⟨e1, e2, e3, e4, e5, e6, e7, e8, e9, e10, e11, e12⟩ := h
  simp only [dock_geometry_from_struts, e1, e2, e3, e4, e5, e6, e7, e8, e9, e10, e11, e12]

theorem readWindowType_win (ta : Option (List Nat)) (c : CClient) :
    (readWindowType ta c).win = c.win := by
  rcases ta with _ | atoms
  · rfl
  · simp only [readWindowType]
    split_ifs <;> rfl

theorem readStrutPartial_win (sv : Option (List Nat)) (c : CClient) :
    (readStrutPartial sv c).win = c.win := by
  rcases sv with _ | vals
  · rfl
  · simp only [readStrutPartial]
    split_ifs <;> rfl

theorem get_window_type_and_strut_win (p : XProps) (c : CClient) :
    (get_window_type_and_strut p c).win = c.win := by
  unfold get_window_type_and_strut
  rw [readStrutPartial_win, readWindowType_win]
  rfl

/-- C8 (amended): a ConfigureRequest for a managed dock never applies the
request's values: the handler's result does not depend on the request nor
on the queried post-configure attributes; when the re-read properties
still mark the client a dock and yield a non-zero primary strut, the
dock's new geometry is the sanity-clamped strut-derived formula, which is
a function of the strut fields, the screen size and the reserved margins
only.  (When every primary strut is zero the previous geometry is kept
instead, so the claim's "function of its struts, screen and margins" does
not hold in that case.) -/
theorem C8_amended_dock_configure_ignores_request (s : WMState) (win : Nat) (c : CClient)
    (props : XProps) (hfind : find_client s.registry win = some c)
    (hdock : c.is_dock = true) :
    (∀ r1 r2 wa1 wa2, handle_configurerequest s win props r1 wa1 =
        handle_configurerequest s win props r2 wa2) ∧
    (∀ r wa, (get_window_type_and_strut props c).is_dock = true →
      ∀ g, dock_geometry_from_struts s.sw s.sh s.reserved
            (get_window_type_and_strut props c) = some g →
        find_client (handle_configurerequest s win props r wa).1.registry win =
          some { get_window_type_and_strut props c with
                 x := (dock_sanity s.sw s.sh g).1,
                 y := (dock_sanity s.sw s.sh g).2.1,
                 w := (dock_sanity s.sw s.sh g).2.2.1,
                 h := (dock_sanity s.sw s.sh g).2.2.2 }) ∧
    (∀ c', strutsOf c' = strutsOf (get_window_type_and_strut props c) →
      dock_geometry_from_struts s.sw s.sh s.reserved c' =
        dock_geometry_from_struts s.sw s.sh s.reserved (get_window_type_and_strut props c)) := by
  have hcwin : c.win = win := by
    unfold find_client at hfind
    have := List.find?_some hfind
    simpa using this
  refine ⟨?_, ?_, ?_⟩
  · intro r1 r2 wa1 wa2
    simp only [handle_configurerequest, hfind, hdock, eq_self_iff_true, if_true]
  · intro r wa hd1 g hg
    have happ : apply_dock_geometry s.sw s.sh s.reserved (get_window_type_and_strut props c) =
        { get_window_type_and_strut props c with
          x := (dock_sanity s.sw s.sh g).1,
          y := (dock_sanity s.sw s.sh g).2.1,
          w := (dock_sanity s.sw s.sh g).2.2.1,
          h := (dock_sanity s.sw s.sh g).2.2.2 } := by
      simp [apply_dock_geometry, hd1, hg]
    have hdwin : (apply_dock_geometry s.sw s.sh s.reserved
        (get_window_type_and_strut props c)).win = win := by
      rw [happ]
      show (get_window_type_and_strut props c).win = win
      rw [get_window_type_and_strut_win]
      exact hcwin
    simp only [handle_configurerequest, hfind, hdock, eq_self_iff_true, if_true]
    rw [find_client_map_replace s.registry win c _ hfind hdwin, happ]
  · intro c' h
    exact dock_geometry_only_struts s.sw s.sh s.reserved _ c' h

/-- C8 (counterexample to the claim as stated): two states identical
except for the dock's prior x position, with the same (all-zero) struts,
window properties, screen size and reserved margins, yield different dock
geometries after the ConfigureRequest handler, so the geometry after the
handler is not a function of struts, screen and margins alone. -/
theorem C8_counterexample :
    ((find_client (handle_configurerequest
        { registry := [{ win := 5, x := 5, y := 0, w := 50, h := 60,
                         workspace := -1, is_dock := true }],
          tagTiling := fun _ => false, layoutOf := fun _ => 1, sw := 1000, sh := 800 }
        5 ⟨some [NET_WM_WINDOW_TYPE_DOCK_ATOM], none⟩ {} none).1.registry 5).map
        (fun cc => (cc.x, strutsOf cc)) = some (5, List.replicate 12 0)) ∧
    ((find_client (handle_configurerequest
        { registry := [{ win := 5, x := 7, y := 0, w := 50, h := 60,
                         workspace := -1, is_dock := true }],
          tagTiling := fun _ => false, layoutOf := fun _ => 1, sw := 1000, sh := 800 }
        5 ⟨some [NET_WM_WINDOW_TYPE_DOCK_ATOM], none⟩ {} none).1.registry 5).map
        (fun cc => (cc.x, strutsOf cc)) = some (7, List.replicate 12 0)) := by
  refine ⟨by decide, by decide⟩

/-- C8 (witness): the amended theorem applied to a dock with a top strut
of 30 on a 1000x800 screen. -/
theorem C8_witness :
    (find_client ({ registry := [{ win := 5, x := 1, y := 2, w := 50, h := 60,
                                   workspace := -1, is_dock := true }],
                    tagTiling := fun _ => false, layoutOf := fun _ => 1,
                    sw := 1000, sh := 800 } : WMState).registry 5 =
        some { win := 5, x := 1, y := 2, w := 50, h := 60,
               workspace := -1, is_dock := true } ∧
     ({ win := 5, x := 1, y := 2, w := 50, h := 60,
        workspace := -1, is_dock := true } : CClient).is_dock = true) ∧
    (∀ r1 r2 wa1 wa2,
      handle_configurerequest
        { registry := [{ win := 5, x := 1, y := 2, w := 50, h := 60,
                         workspace := -1, is_dock := true }],
          tagTiling := fun _ => false, layoutOf := fun _ => 1, sw := 1000, sh := 800 }
        5 ⟨some [NET_WM_WINDOW_TYPE_DOCK_ATOM], some [0, 0, 30, 0, 0, 0, 0, 0, 0, 0, 0, 0]⟩
        r1 wa1 =
      handle_configurerequest
        { registry := [{ win := 5, x := 1, y := 2, w := 50, h := 60,
                         workspace := -1, is_dock := true }],
          tagTiling := fun _ => false, layoutOf := fun _ => 1, sw := 1000, sh := 800 }
        5 ⟨some [NET_WM_WINDOW_TYPE_DOCK_ATOM], some [0, 0, 30, 0, 0, 0, 0, 0, 0, 0, 0, 0]⟩
        r2 wa2) :=
  ⟨⟨by decide, by decide⟩,
   (C8_amended_dock_configure_ignores_request
      { registry := [{ win := 5, x := 1, y := 2, w := 50, h := 60,
                       workspace := -1, is_dock := true }],
        tagTiling := fun _ => false, layoutOf := fun _ => 1, sw := 1000, sh := 800 }
      5 { win := 5, x := 1, y := 2, w := 50, h := 60, workspace := -1, is_dock := true }
      ⟨some [NET_WM_WINDOW_TYPE_DOCK_ATOM], some [0, 0, 30, 0, 0, 0, 0, 0, 0, 0, 0, 0]⟩
      (by decide) (by decide)).1⟩

/-! ## Claim C9 -/

/-- C9: `switch_workspace` called with the current workspace, or with an
index outside 0..8, changes nothing: the state (current workspace, focus,
clients, registry order) is returned unchanged and no X request or
sidecar-file write is emitted. -/
theorem C9_switch_workspace_noop (s : WMState) (ws : Int)
    (h : ws = s.current_workspace ∨ ws < 0 ∨ MAX_WORKSPACES ≤ ws) :
    switch_workspace s ws = (s, []) := by
  unfold switch_workspace
  rcases h with h | h | h
  · by_cases hr : ws < 0 ∨ MAX_WORKSPACES ≤ ws
    · rw [if_pos hr]
    · rw [if_neg hr, if_pos h]
  · rw [if_pos (Or.inl h)]
  · rw [if_pos (Or.inr h)]

/-- C9 (witness): switching to the already-current workspace of a
concrete state is a no-op. -/
theorem C9_witness :
    ((0 : Int) = ({ registry := [{ win := 3, workspace := 0 }],
                    tagTiling := fun _ => true, layoutOf := fun _ => 0,
                    sw := 1000, sh := 800 } : WMState).current_workspace ∨
      (0 : Int) < 0 ∨ MAX_WORKSPACES ≤ (0 : Int)) ∧
    switch_workspace
      { registry := [{ win := 3, workspace := 0 }],
        tagTiling := fun _ => true, layoutOf := fun _ => 0, sw := 1000, sh := 800 } 0 =
      ({ registry := [{ win := 3, workspace := 0 }],
         tagTiling := fun _ => true, layoutOf := fun _ => 0, sw := 1000, sh := 800 }, []) :=
  ⟨Or.inl rfl,
   C9_switch_workspace_noop
     { registry := [{ win := 3, workspace := 0 }],
       tagTiling := fun _ => true, layoutOf := fun _ => 0, sw := 1000, sh := 800 } 0
     (Or.inl rfl)⟩

/-! ## Claim C10 -/

/-- C10: managing a window with the override-redirect attribute set that
is not classified as a dock leaves the whole state unchanged and issues
no request: the window is not added to the registry, focus and sidecar
files are untouched, and no geometry, border or focus request is made. -/
theorem C10_manage_override_redirect_noop (s : WMState) (win : Nat) (wa : WinAttrs)
    (props : XProps) (hor : wa.override_redirect = true)
    (hnd : (get_window_type_and_strut props
        { win := win, workspace := s.current_workspace }).is_dock = false) :
    manage s win true wa props = (s, []) := by
  simp [manage, hor, hnd]

/-- C10 (witness): a concrete override-redirect, non-dock window is
ignored by `manage`. -/
theorem C10_witness :
    (({ override_redirect := true, width := 10, height := 10 } : WinAttrs).override_redirect =
        true ∧
     (get_window_type_and_strut ⟨none, none⟩
        { win := 7, workspace := ({ registry := [], tagTiling := fun _ => false,
                                    layoutOf := fun _ => 0, sw := 1000,
                                    sh := 800 } : WMState).current_workspace }).is_dock = false) ∧
    manage { registry := [], tagTiling := fun _ => false, layoutOf := fun _ => 0,
             sw := 1000, sh := 800 } 7 true
        { override_redirect := true, width := 10, height := 10 } ⟨none, none⟩ =
      ({ registry := [], tagTiling := fun _ => false, layoutOf := fun _ => 0,
         sw := 1000, sh := 800 }, []) :=
  ⟨⟨by decide, by decide⟩,
   C10_manage_override_redirect_noop
     { registry := [], tagTiling := fun _ => false, layoutOf := fun _ => 0,
       sw := 1000, sh := 800 } 7
     { override_redirect := true, width := 10, height := 10 } ⟨none, none⟩
     (by decide) (by decide)⟩

/-! ## Claim C5 -/

theorem neighborData_nonneg (cur c : CClient) (dir : Nat) :
    0 ≤ (neighborData cur c dir).2.2.1 ∧ 0 ≤ (neighborData cur c dir).2.2.2 := by
  dsimp only [neighborData]
  split_ifs <;> refine ⟨?_, ?_⟩ <;> dsimp only <;>
    first
      | omega
      | exact abs_nonneg _

theorem centerDist_nonneg (cur c : CClient) : 0 ≤ centerDist cur c := by
  dsimp only [centerDist]
  have h1 := mul_self_nonneg
    (c.x + (c.w : Int) / 2 - (cur.x + (cur.w : Int) / 2))
  have h2 := mul_self_nonneg
    (c.y + (c.h : Int) / 2 - (cur.y + (cur.h : Int) / 2))
  linarith

theorem candScore_eq (cur c : CClient) (dir : Nat) (fb : Bool) :
    candScore cur c dir fb =
      if (neighborData cur c dir).1 then
        (if 0 < (neighborData cur c dir).2.1 then
          (neighborData cur c dir).2.2.1 * 100000 + (neighborData cur c dir).2.2.2 * 100
            - 1000000000 - 500000000
        else
          (neighborData cur c dir).2.2.1 * 100000 + (neighborData cur c dir).2.2.2 * 100
            - 1000000000)
      else if fb then
        (neighborData cur c dir).2.2.1 * 100000 + (neighborData cur c dir).2.2.2 * 100
      else centerDist cur c := rfl

theorem candScore_nonneg (cur c : CClient) (dir : Nat) (fb : Bool)
    (h : inDirB cur c dir = false) : 0 ≤ candScore cur c dir fb := by
  have hd := neighborData_nonneg cur c dir
  unfold inDirB at h
  rw [candScore_eq, h, if_neg Bool.false_ne_true]
  cases fb with
  | false => rw [if_neg Bool.false_ne_true]; exact centerDist_nonneg cur c
  | true => rw [if_pos rfl]; omega

theorem candScore_neg (cur c : CClient) (dir : Nat) (fb : Bool)
    (h : inDirB cur c dir = true)
    (hb : (neighborData cur c dir).2.2.1 * 100000 + (neighborData cur c dir).2.2.2 * 100 <
      1000000000) : candScore cur c dir fb < 0 := by
  unfold inDirB at h
  rw [candScore_eq, h, if_pos rfl]
  have hd := neighborData_nonneg cur c dir
  split_ifs <;> omega

/-- The scan-state invariant is preserved by the whole fold, and once an
in-direction candidate passes the filter the `found_in_dir` flag is set. -/
theorem neighbor_fold (ws : Int) (cur : CClient) (dir : Nat) :
    ∀ (l : List CClient) (st : Option CClient × Int × Bool),
    (∀ c ∈ l, neighborPasses ws cur c → inDirB cur c dir = true →
      (neighborData cur c dir).2.2.1 * 100000 + (neighborData cur c dir).2.2.2 * 100 <
        1000000000) →
    NInv ws cur dir st →
    NInv ws cur dir (l.foldl (neighborStep ws cur dir) st) ∧
    ((st.2.2 = true ∨ ∃ c ∈ l, neighborPasses ws cur c ∧ inDirB cur c dir = true) →
      (l.foldl (neighborStep ws cur dir) st).2.2 = true) := by
  intro l
  induction l with
  | nil =>
    intro st hB hInv
    refine ⟨hInv, ?_⟩
    rintro (h | ⟨c, hc, _⟩)
    · exact h
    · exact absurd hc (List.not_mem_nil c)
  | cons a tl ih =>
    intro st hB hInv
    rw [List.foldl_cons]
    have hBtl : ∀ c ∈ tl, neighborPasses ws cur c → inDirB cur c dir = true →
        (neighborData cur c dir).2.2.1 * 100000 + (neighborData cur c dir).2.2.2 * 100 <
          1000000000 := fun c hc => hB c (List.mem_cons_of_mem a hc)
    by_cases hskip : ¬a.workspace = ws ∨ a.win = cur.win ∨ a.is_dock = true
    · have hstep : neighborStep ws cur dir st a = st := by
        unfold neighborStep
        rw [if_pos hskip]
      rw [hstep]
      obtain ⟨h1, h2⟩ := ih st hBtl hInv
      refine ⟨h1, ?_⟩
      rintro (h | ⟨c, hc, hp, hi⟩)
      · exact h2 (Or.inl h)
      · rcases List.mem_cons.1 hc with rfl | hc
        · obtain ⟨p1, p2, p3⟩ := hp
          rcases hskip with h' | h' | h'
          · exact absurd p1 h'
          · exact absurd h' p2
          · rw [p3] at h'
            exact absurd h' Bool.false_ne_true
        · exact h2 (Or.inr ⟨c, hc, hp, hi⟩)
    · have hpassA : neighborPasses ws cur a := by
        push_neg at hskip
        exact ⟨hskip.1, hskip.2.1, Bool.eq_false_iff.mpr hskip.2.2⟩
      have hstep : neighborStep ws cur dir st a =
          (if candScore cur a dir st.2.2 < st.2.1
            then (some a, candScore cur a dir st.2.2, st.2.2 || inDirB cur a dir)
            else (st.1, st.2.1, st.2.2 || inDirB cur a dir)) := by
        unfold neighborStep
        rw [if_neg hskip]
      rw [hstep]
      by_cases hin : inDirB cur a dir = true
      · have hbA := hB a (List.mem_cons_self a tl) hpassA hin
        have hneg := candScore_neg cur a dir st.2.2 hin hbA
        have hInv' : NInv ws cur dir
            (if candScore cur a dir st.2.2 < st.2.1
              then (some a, candScore cur a dir st.2.2, st.2.2 || inDirB cur a dir)
              else (st.1, st.2.1, st.2.2 || inDirB cur a dir)) := by
          split_ifs with hupd
          · refine ⟨fun hf => ?_, fun _ => ⟨a, rfl, hneg, hpassA, hin⟩⟩
            simp [hin] at hf
          · cases hf : st.2.2 with
            | true =>
              obtain ⟨bc, hbc1, hbc2, hbc3, hbc4⟩ := hInv.2 hf
              refine ⟨fun hff => ?_, fun _ => ⟨bc, hbc1, hbc2, hbc3, hbc4⟩⟩
              simp [hin] at hff
            | false =>
              exfalso
              have h0 := hInv.1 hf
              omega
        obtain ⟨h1, h2⟩ := ih _ hBtl hInv'
        refine ⟨h1, fun _ => h2 (Or.inl ?_)⟩
        split_ifs <;> simp [hin]
      · have hfa : inDirB cur a dir = false := Bool.eq_false_iff.mpr hin
        have hnneg := candScore_nonneg cur a dir st.2.2 hfa
        have hInv' : NInv ws cur dir
            (if candScore cur a dir st.2.2 < st.2.1
              then (some a, candScore cur a dir st.2.2, st.2.2 || inDirB cur a dir)
              else (st.1, st.2.1, st.2.2 || inDirB cur a dir)) := by
          split_ifs with hupd
          · refine ⟨fun _ => hnneg, fun hf => ?_⟩
            simp only [hfa, Bool.or_false] at hf
            obtain ⟨bc, hbc1, hbc2, hbc3, hbc4⟩ := hInv.2 hf
            exfalso
            omega
          · refine ⟨fun hf => ?_, fun hf => ?_⟩
            · simp only [hfa, Bool.or_false] at hf
              exact hInv.1 hf
            · simp only [hfa, Bool.or_false] at hf
              obtain ⟨bc, hbc1, hbc2, hbc3, hbc4⟩ := hInv.2 hf
              exact ⟨bc, hbc1, hbc2, hbc3, hbc4⟩
        obtain ⟨h1, h2⟩ := ih _ hBtl hInv'
        refine ⟨h1, ?_⟩
        rintro (h | ⟨c, hc, hp, hi⟩)
        · refine h2 (Or.inl ?_)
          split_ifs <;> simp [hfa, h]
        · rcases List.mem_cons.1 hc with rfl | hc
          · exact absurd hi hin
          · exact h2 (Or.inr ⟨c, hc, hp, hi⟩)

/-- Normal form of `find_neighbor_in_direction` when the current client is
on the requested workspace and the registry is nonempty. -/
theorem find_neighbor_eq_of_cur (cs : List CClient) (ws : Int) (cur : CClient)
    (dir : Nat) (hcur : cur.workspace = ws) (hne : cs ≠ []) :
    find_neighbor_in_direction cs ws cur dir =
      (cs.foldl (neighborStep ws cur dir) (none, 9223372036854775807, false)).1 := by
  have h1 : cs.isEmpty = false := by
    cases cs with
    | nil => exact absurd rfl hne
    | cons a tl => rfl
  unfold find_neighbor_in_direction
  rw [h1, if_neg Bool.false_ne_true, if_pos hcur]

/-- C5 (amended): provided every in-direction candidate of the registry has
raw distance score `primary*100000 + secondary*100` below 10^9 (so that the
in-direction bonus of −10^9 makes its score negative), whenever the current
client is on the scanned workspace and at least one same-workspace non-dock
candidate is in-direction, `find_neighbor_in_direction` returns an
in-direction candidate, and every such in-direction candidate scores
strictly below every non-in-direction one. -/
theorem C5_amended_neighbor_in_direction (cs : List CClient) (ws : Int)
    (cur : CClient) (dir : Nat)
    (hcur : cur.workspace = ws)
    (hex : ∃ c ∈ cs, neighborPasses ws cur c ∧ inDirB cur c dir = true)
    (hB : ∀ c ∈ cs, neighborPasses ws cur c → inDirB cur c dir = true →
      (neighborData cur c dir).2.2.1 * 100000 + (neighborData cur c dir).2.2.2 * 100 <
        1000000000) :
    (∃ c, find_neighbor_in_direction cs ws cur dir = some c ∧
        neighborPasses ws cur c ∧ inDirB cur c dir = true) ∧
    (∀ c ∈ cs, ∀ c' : CClient, ∀ fb fb' : Bool,
      neighborPasses ws cur c → inDirB cur c dir = true →
      inDirB cur c' dir = false →
      candScore cur c dir fb < candScore cur c' dir fb') := by
  constructor
  · obtain ⟨c0, hc0, hp0, hi0⟩ := hex
    have hne : cs ≠ [] := by
      rintro rfl
      exact absurd hc0 (List.not_mem_nil c0)
    rw [find_neighbor_eq_of_cur cs ws cur dir hcur hne]
    have hInv0 : NInv ws cur dir (none, 9223372036854775807, false) := by
      refine ⟨fun _ => by decide, fun hf => ?_⟩
      simp at hf
    obtain ⟨hI, hflag⟩ :=
      neighbor_fold ws cur dir cs (none, 9223372036854775807, false) hB hInv0
    have hf := hflag (Or.inr ⟨c0, hc0, hp0, hi0⟩)
    obtain ⟨bc, hbc1, _, hbc3, hbc4⟩ := hI.2 hf
    exact ⟨bc, hbc1, hbc3, hbc4⟩
  · intro c hc c' fb fb' hp hi hi'
    have h1 := candScore_neg cur c dir fb hi (hB c hc hp hi)
    have h2 := candScore_nonneg cur c' dir fb' hi'
    omega

/-- C5 counterexample: with the current client at the origin, an
in-direction (left) candidate 20000 pixels away and a non-in-direction
candidate nearby, the scan returns the non-in-direction candidate, whose
score is lower: the −10^9 bonus does not dominate `primary*100000` once the
primary distance reaches 10^4. -/
theorem C5_counterexample :
    find_neighbor_in_direction
        [{ win := 100, w := 10, h := 10 },
         { win := 1, x := -20000, y := 100, w := 10, h := 10 },
         { win := 2, x := 5, w := 10, h := 10 }] 0
        { win := 100, w := 10, h := 10 } 0 =
      some { win := 2, x := 5, w := 10, h := 10 } ∧
    inDirB { win := 100, w := 10, h := 10 } { win := 2, x := 5, w := 10, h := 10 } 0 = false ∧
    neighborPasses 0 { win := 100, w := 10, h := 10 }
      { win := 1, x := -20000, y := 100, w := 10, h := 10 } ∧
    inDirB { win := 100, w := 10, h := 10 }
      { win := 1, x := -20000, y := 100, w := 10, h := 10 } 0 = true ∧
    ¬(candScore { win := 100, w := 10, h := 10 }
        { win := 1, x := -20000, y := 100, w := 10, h := 10 } 0 false <
      candScore { win := 100, w := 10, h := 10 }
        { win := 2, x := 5, w := 10, h := 10 } 0 true) := by
  decide

/-- Witness instantiating `C5_amended_neighbor_in_direction` at a concrete
registry. -/
theorem C5_witness :
    (∃ c, find_neighbor_in_direction
        [{ win := 100, w := 10, h := 10 }, { win := 1, x := -50, w := 10, h := 10 }] 0
        { win := 100, w := 10, h := 10 } 0 = some c ∧
      neighborPasses 0 { win := 100, w := 10, h := 10 } c ∧
      inDirB { win := 100, w := 10, h := 10 } c 0 = true) :=
  (C5_amended_neighbor_in_direction
    [{ win := 100, w := 10, h := 10 }, { win := 1, x := -50, w := 10, h := 10 }] 0
    { win := 100, w := 10, h := 10 } 0
    (by decide) (by decide) (by decide)).1

/-! ## Claim C6 -/

theorem mod_shift_ne (n m x : Nat) (h1 : 1 ≤ m) (h2 : m < n) (hx : x < n) :
    (x + m) % n ≠ x := by
  intro he
  rcases Nat.lt_or_ge (x + m) n with h | h
  · rw [Nat.mod_eq_of_lt h] at he
    omega
  · have hlt : x + m - n < n := by omega
    rw [Nat.mod_eq_sub_mod h, Nat.mod_eq_of_lt hlt] at he
    omega

theorem stepIdx_fwd (n c : Nat) (hc : c < n) : stepIdx n true c = (c + 1) % n := by
  unfold stepIdx
  rw [if_pos rfl]
  split_ifs with h
  · exact (Nat.mod_eq_of_lt h).symm
  · have he : c + 1 = n := by omega
    rw [he, Nat.mod_self]

theorem stepIdx_back0 (n : Nat) : stepIdx n false 0 = 0 := rfl

theorem cycInner_succ (cs : List CClient) (ws : Int) (start : Nat) (forward : Bool)
    (fuel c : Nat) :
    cycInner cs ws start forward (fuel + 1) c =
      if onWsIdx cs ws c then some c
      else if stepIdx cs.length forward c = start then some (stepIdx cs.length forward c)
      else cycInner cs ws start forward fuel (stepIdx cs.length forward c) := rfl

theorem cycOuter_succ (cs : List CClient) (ws : Int) (start : Nat) (forward : Bool)
    (fuel c : Nat) :
    cycOuter cs ws start forward (fuel + 1) c =
      match cycInner cs ws start forward (cs.length + 1) (stepIdx cs.length forward c) with
      | none => none
      | some c2 =>
          if onWsIdx cs ws c2 then some c2
          else if c2 = start then some c2
          else cycOuter cs ws start forward fuel c2 := rfl

/-- Correctness of the forward inner skip loop: starting `m` cyclic steps
before `start`, it returns the first on-workspace position it checks, or
`start` (the break) when none of the `m` checked positions is on the
workspace. -/
theorem cycInner_fwd (cs : List CClient) (ws : Int) (start : Nat) :
    ∀ (m c fuel : Nat), 1 ≤ m → m < cs.length → c < cs.length →
      (c + m) % cs.length = start → m ≤ fuel →
      ((∀ u, u < m → onWsIdx cs ws ((c + u) % cs.length) = false) →
        cycInner cs ws start true fuel c = some start) ∧
      (∀ t, t < m → onWsIdx cs ws ((c + t) % cs.length) = true →
        (∀ u, u < t → onWsIdx cs ws ((c + u) % cs.length) = false) →
        cycInner cs ws start true fuel c = some ((c + t) % cs.length)) := by
  intro m
  induction m with
  | zero => intro c fuel h1; omega
  | succ m ih =>
    intro c fuel h1 hmn hc hdist hfuel
    have hn : 0 < cs.length := by omega
    obtain ⟨fuel', rfl⟩ : ∃ f, fuel = f + 1 := ⟨fuel - 1, by omega⟩
    have hcmod : (c + 0) % cs.length = c := by
      rw [Nat.add_zero, Nat.mod_eq_of_lt hc]
    have hstep : stepIdx cs.length true c = (c + 1) % cs.length := stepIdx_fwd _ _ hc
    by_cases h0 : onWsIdx cs ws c = true
    · constructor
      · intro hall
        have := hall 0 (by omega)
        rw [hcmod] at this
        rw [this] at h0
        exact absurd h0 Bool.false_ne_true
      · intro t ht hT hu
        rcases Nat.eq_zero_or_pos t with rfl | htpos
        · rw [cycInner_succ, if_pos h0, hcmod]
        · have := hu 0 htpos
          rw [hcmod] at this
          rw [this] at h0
          exact absurd h0 Bool.false_ne_true
    · have h0f : onWsIdx cs ws c = false := Bool.eq_false_iff.mpr h0
      rcases Nat.eq_zero_or_pos m with rfl | hm
      · -- distance 1: the step lands on start and the loop breaks there
        have hc1 : (c + 1) % cs.length = start := hdist
        constructor
        · intro _
          rw [cycInner_succ, if_neg h0, hstep, if_pos hc1, hc1]
        · intro t ht hT _
          have ht0 : t = 0 := by omega
          rw [ht0, hcmod] at hT
          rw [hT] at h0f
          exact absurd h0f.symm Bool.false_ne_true
      · -- distance m+1 ≥ 2: the step does not reach start, recurse
        have hc' : (c + 1) % cs.length < cs.length := Nat.mod_lt _ hn
        have hdist' : ((c + 1) % cs.length + m) % cs.length = start := by
          rw [Nat.mod_add_mod]
          have : c + 1 + m = c + (m + 1) := by omega
          rw [this, hdist]
        have hne : (c + 1) % cs.length ≠ start := by
          intro he
          have hx : start < cs.length := he ▸ hc'
          have hs : (start + m) % cs.length = start := he ▸ hdist'
          exact mod_shift_ne cs.length m start hm (by omega) hx hs
        have hshift : ∀ u, ((c + 1) % cs.length + u) % cs.length =
            (c + (u + 1)) % cs.length := by
          intro u
          rw [Nat.mod_add_mod]
          have : c + 1 + u = c + (u + 1) := by omega
          rw [this]
        obtain ⟨ih1, ih2⟩ := ih ((c + 1) % cs.length) fuel' hm (by omega) hc' hdist'
          (by omega)
        constructor
        · intro hall
          rw [cycInner_succ, if_neg h0, hstep, if_neg hne]
          apply ih1
          intro u hu
          rw [hshift u]
          exact hall (u + 1) (by omega)
        · intro t ht hT hu
          rcases Nat.eq_zero_or_pos t with rfl | htpos
          · rw [hcmod] at hT
            rw [hT] at h0f
            exact absurd h0f.symm Bool.false_ne_true
          · obtain ⟨t', rfl⟩ : ∃ t', t = t' + 1 := ⟨t - 1, by omega⟩
            rw [cycInner_succ, if_neg h0, hstep, if_neg hne]
            have := ih2 t' (by omega) (by rw [hshift t']; exact hT)
              (fun u hu' => by rw [hshift u]; exact hu (u + 1) (by omega))
            rw [this, hshift t']

/-- Normal form of one `cycle_focus` step once the scan's resulting index is
known. -/
theorem cycle_focus_eq (s : WMState) (forward : Bool) (w i k : Nat)
    (hne : s.registry ≠ []) (hcyc : s.cycling = true) (hfoc : s.focused = some w)
    (hidx : s.registry.findIdx (fun c => c.win == w) = i)
    (hout : cycOuter s.registry s.current_workspace i forward
      (s.registry.length + 1) i = some k)
    (hk : k < s.registry.length) :
    cycle_focus s forward =
      if s.focused = some (s.registry.get ⟨k, hk⟩).win then some (s, [])
      else
        some ({ s with focused := some (s.registry.get ⟨k, hk⟩).win },
          [XEff.raiseWin (s.registry.get ⟨k, hk⟩).win,
           XEff.setInputFocus (s.registry.get ⟨k, hk⟩).win] ++
            update_borders { s with focused := some (s.registry.get ⟨k, hk⟩).win }) := by
  unfold cycle_focus
  have hcond : ¬(s.registry.isEmpty = true ∨ s.cycling = false) := by
    simp [List.isEmpty_iff, hne, hcyc]
  rw [if_neg hcond, hfoc]
  dsimp only
  rw [hidx, hout]
  dsimp only
  rw [List.getElem?_eq_getElem hk]
  rfl

/-- C6 (amended): with a focused client at registry index `i` on the current
workspace, a forward `cycle_focus` step focuses the cyclically next
on-workspace entry (wrapping at the tail: position `(i+t) % n` for the least
`t ≥ 1` with that position on the workspace), while a backward step from the
head of the registry leaves the state unchanged — backward steps do not wrap
from the head to the tail. -/
theorem C6_amended_cycle_focus (s : WMState) (w i : Nat)
    (hcyc : s.cycling = true)
    (hne : s.registry ≠ [])
    (hfoc : s.focused = some w)
    (hidx : s.registry.findIdx (fun c => c.win == w) = i)
    (hi : i < s.registry.length)
    (hget : (s.registry.get ⟨i, hi⟩).win = w)
    (hon : onWsIdx s.registry s.current_workspace i = true) :
    (∃ s1 effs, cycle_focus s true = some (s1, effs) ∧
      ∃ t, 0 < t ∧ t ≤ s.registry.length ∧
        onWsIdx s.registry s.current_workspace ((i + t) % s.registry.length) = true ∧
        (∀ u, 0 < u → u < t →
          onWsIdx s.registry s.current_workspace ((i + u) % s.registry.length) = false) ∧
        (∃ c, s.registry[(i + t) % s.registry.length]? = some c ∧
          s1.focused = some c.win)) ∧
    (i = 0 → cycle_focus s false = some (s, [])) := by
  have hn : 0 < s.registry.length := List.length_pos.mpr hne
  have hstep0 : stepIdx s.registry.length true i = (i + 1) % s.registry.length :=
    stepIdx_fwd _ _ hi
  have hc1 : (i + 1) % s.registry.length < s.registry.length := Nat.mod_lt _ hn
  have hshift : ∀ u, ((i + 1) % s.registry.length + u) % s.registry.length =
      (i + (u + 1)) % s.registry.length := by
    intro u
    rw [Nat.mod_add_mod]
    have he : i + 1 + u = i + (u + 1) := by omega
    rw [he]
  have hdist : ((i + 1) % s.registry.length + (s.registry.length - 1)) %
      s.registry.length = i := by
    rw [hshift]
    have he : i + (s.registry.length - 1 + 1) = i + s.registry.length := by omega
    rw [he, Nat.add_mod_right, Nat.mod_eq_of_lt hi]
  constructor
  · by_cases hex2 : ∃ t, 0 < t ∧ t < s.registry.length ∧
        onWsIdx s.registry s.current_workspace ((i + t) % s.registry.length) = true
    · obtain ⟨ht0pos, ht0lt, ht0on⟩ := Nat.find_spec hex2
      have hminF : ∀ u, 0 < u → u < Nat.find hex2 →
          onWsIdx s.registry s.current_workspace ((i + u) % s.registry.length) = false := by
        intro u h1 h2
        have h3 := Nat.find_min hex2 h2
        push_neg at h3
        exact Bool.eq_false_iff.mpr (h3 h1 (by omega))
      obtain ⟨_, hpart2⟩ := cycInner_fwd s.registry s.current_workspace i
        (s.registry.length - 1) ((i + 1) % s.registry.length) (s.registry.length + 1)
        (by omega) (by omega) hc1 hdist (by omega)
      have hinner := hpart2 (Nat.find hex2 - 1) (by omega)
        (by
          rw [hshift]
          have he : Nat.find hex2 - 1 + 1 = Nat.find hex2 := by omega
          rw [he]
          exact ht0on)
        (fun u hu => by
          rw [hshift]
          exact hminF (u + 1) (by omega) (by omega))
      rw [hshift] at hinner
      have he1 : Nat.find hex2 - 1 + 1 = Nat.find hex2 := by omega
      rw [he1] at hinner
      have hout : cycOuter s.registry s.current_workspace i true
          (s.registry.length + 1) i =
          some ((i + Nat.find hex2) % s.registry.length) := by
        rw [cycOuter_succ, hstep0, hinner]
        dsimp only
        rw [if_pos ht0on]
      have hk : (i + Nat.find hex2) % s.registry.length < s.registry.length :=
        Nat.mod_lt _ hn
      have hcf := cycle_focus_eq s true w i ((i + Nat.find hex2) % s.registry.length)
        hne hcyc hfoc hidx hout hk
      by_cases hsame : s.focused =
          some ((s.registry.get ⟨(i + Nat.find hex2) % s.registry.length, hk⟩).win)
      · rw [if_pos hsame] at hcf
        exact ⟨s, [], hcf, Nat.find hex2, ht0pos, by omega, ht0on, hminF,
          s.registry.get ⟨(i + Nat.find hex2) % s.registry.length, hk⟩,
          List.getElem?_eq_getElem hk, hsame⟩
      · rw [if_neg hsame] at hcf
        exact ⟨_, _, hcf, Nat.find hex2, ht0pos, by omega, ht0on, hminF,
          s.registry.get ⟨(i + Nat.find hex2) % s.registry.length, hk⟩,
          List.getElem?_eq_getElem hk, rfl⟩
    · push_neg at hex2
      have hminF : ∀ u, 0 < u → u < s.registry.length →
          onWsIdx s.registry s.current_workspace ((i + u) % s.registry.length) = false :=
        fun u h1 h2 => Bool.eq_false_iff.mpr (hex2 u h1 h2)
      have hinner : cycInner s.registry s.current_workspace i true
          (s.registry.length + 1) ((i + 1) % s.registry.length) = some i := by
        rcases Nat.lt_or_ge 1 s.registry.length with hn2 | hn1
        · obtain ⟨hpart1, _⟩ := cycInner_fwd s.registry s.current_workspace i
            (s.registry.length - 1) ((i + 1) % s.registry.length)
            (s.registry.length + 1) (by omega) (by omega) hc1 hdist (by omega)
          exact hpart1 (fun u hu => by
            rw [hshift]
            exact hminF (u + 1) (by omega) (by omega))
        · have hi0 : i = 0 := by omega
          have hn1' : s.registry.length = 1 := by omega
          have hc1eq : (i + 1) % s.registry.length = i := by
            rw [hi0, hn1']
          rw [hc1eq, cycInner_succ, if_pos hon]
      have hout : cycOuter s.registry s.current_workspace i true
          (s.registry.length + 1) i = some i := by
        rw [cycOuter_succ, hstep0, hinner]
        dsimp only
        rw [if_pos hon]
      have hcf := cycle_focus_eq s true w i i hne hcyc hfoc hidx hout hi
      have hsame : s.focused = some ((s.registry.get ⟨i, hi⟩).win) := by
        rw [hfoc, hget]
      rw [if_pos hsame] at hcf
      have hin' : (i + s.registry.length) % s.registry.length = i := by
        rw [Nat.add_mod_right, Nat.mod_eq_of_lt hi]
      refine ⟨s, [], hcf, s.registry.length, hn, Nat.le_refl _, ?_, hminF, ?_⟩
      · rw [hin']
        exact hon
      · refine ⟨s.registry.get ⟨i, hi⟩, ?_, ?_⟩
        · rw [hin']
          exact List.getElem?_eq_getElem hi
        · rw [hfoc, hget]
  · intro hi0
    subst hi0
    have hinner : cycInner s.registry s.current_workspace 0 false
        (s.registry.length + 1) 0 = some 0 := by
      rw [cycInner_succ, if_pos hon]
    have hout : cycOuter s.registry s.current_workspace 0 false
        (s.registry.length + 1) 0 = some 0 := by
      rw [cycOuter_succ, stepIdx_back0, hinner]
      dsimp only
      rw [if_pos hon]
    have hcf := cycle_focus_eq s false w 0 0 hne hcyc hfoc hidx hout hi
    have hsame : s.focused = some ((s.registry.get ⟨0, hi⟩).win) := by
      rw [hfoc, hget]
    rw [if_pos hsame] at hcf
    exact hcf

/-- C6 counterexample: two clients on workspace 0, the head focused; a
backward `cycle_focus` step leaves focus on the head (win 1) instead of
wrapping to the tail entry (win 2): `c->prev ? c->prev : NULL` followed by
`if (!c) c = clients` re-enters at the head, so backward never wraps. -/
theorem C6_counterexample :
    (cycle_focus
        { registry := [{ win := 1 }, { win := 2 }], focused := some 1,
          cycling := true, tagTiling := fun _ => false, layoutOf := fun _ => 0,
          sw := 800, sh := 600 } false).map (fun p => (p.1.focused, p.2)) =
      some (some 1, []) ∧
    onWsIdx [{ win := 1 }, { win := 2 }] 0 1 = true ∧
    ([{ win := 1 }, { win := 2 }] : List CClient).findIdx (fun c => c.win == 1) = 0 := by
  decide

/-- Witness instantiating `C6_amended_cycle_focus` at a concrete two-client
state. -/
theorem C6_witness :
    (∃ s1 effs,
      cycle_focus
        { registry := [{ win := 1 }, { win := 2 }], focused := some 1,
          cycling := true, tagTiling := fun _ => false, layoutOf := fun _ => 0,
          sw := 800, sh := 600 } true = some (s1, effs) ∧
      ∃ t, 0 < t ∧ t ≤ 2 ∧
        onWsIdx [{ win := 1 }, { win := 2 }] 0 ((0 + t) % 2) = true ∧
        (∀ u, 0 < u → u < t →
          onWsIdx [{ win := 1 }, { win := 2 }] 0 ((0 + u) % 2) = false) ∧
        (∃ c, ([{ win := 1 }, { win := 2 }] : List CClient)[(0 + t) % 2]? = some c ∧
          s1.focused = some c.win)) ∧
    (0 = 0 → cycle_focus
        { registry := [{ win := 1 }, { win := 2 }], focused := some 1,
          cycling := true, tagTiling := fun _ => false, layoutOf := fun _ => 0,
          sw := 800, sh := 600 } false =
      some ({ registry := [{ win := 1 }, { win := 2 }], focused := some 1,
              cycling := true, tagTiling := fun _ => false, layoutOf := fun _ => 0,
              sw := 800, sh := 600 }, [])) :=
  C6_amended_cycle_focus
    { registry := [{ win := 1 }, { win := 2 }], focused := some 1,
      cycling := true, tagTiling := fun _ => false, layoutOf := fun _ => 0,
      sw := 800, sh := 600 } 1 0
    (by decide) (by decide) rfl (by decide) (by decide) (by decide) (by decide)

/-! ## Claim C3 -/

theorem get_window_type_and_strut_workspace (p : XProps) (c : CClient) :
    (get_window_type_and_strut p c).workspace = c.workspace := by
  have h1 : ∀ (ta : Option (List Nat)) (c' : CClient),
      (readWindowType ta c').workspace = c'.workspace := by
    intro ta c'
    rcases ta with _ | atoms
    · rfl
    · simp only [readWindowType]
      split_ifs <;> rfl
  have h2 : ∀ (sv : Option (List Nat)) (c' : CClient),
      (readStrutPartial sv c').workspace = c'.workspace := by
    intro sv c'
    rcases sv with _ | vals
    · rfl
    · simp only [readStrutPartial]
      split_ifs <;> rfl
  unfold get_window_type_and_strut
  rw [h2, h1]
  rfl

theorem focusInvB_none (s : WMState) (hf : s.focused = none) : focusInvB s = true := by
  unfold focusInvB
  rw [hf]

theorem focusInvB_some (s : WMState) (w : Nat) (hf : s.focused = some w) :
    focusInvB s = s.registry.any
      (fun c => c.win == w && !c.is_dock && c.workspace == s.current_workspace) := by
  unfold focusInvB
  rw [hf]

theorem focusInv_of_mem (s : WMState) (w : Nat) (c : CClient) (hf : s.focused = some w)
    (hm : c ∈ s.registry) (hwin : c.win = w) (hd : c.is_dock = false)
    (hws : c.workspace = s.current_workspace) : focusInvB s = true := by
  rw [focusInvB_some s w hf]
  apply List.any_eq_true.mpr
  refine ⟨c, hm, ?_⟩
  rw [hwin, hd, hws]
  simp

theorem focusInv_elim (s : WMState) (w : Nat) (hf : s.focused = some w)
    (hinv : focusInvB s = true) :
    ∃ c ∈ s.registry, c.win = w ∧ c.is_dock = false ∧
      c.workspace = s.current_workspace := by
  rw [focusInvB_some s w hf] at hinv
  obtain ⟨c, hm, hp⟩ := List.any_eq_true.mp hinv
  simp only [Bool.and_eq_true, beq_iff_eq, Bool.not_eq_true'] at hp
  exact ⟨c, hm, hp.1.1, hp.1.2, hp.2⟩

theorem any_fkey_congr (w : Nat) (cur : Int) (l1 l2 : List CClient)
    (h : l1.map (fun c => (c.win, c.is_dock, c.workspace)) =
      l2.map (fun c => (c.win, c.is_dock, c.workspace))) :
    l1.any (fun c => c.win == w && !c.is_dock && c.workspace == cur) =
      l2.any (fun c => c.win == w && !c.is_dock && c.workspace == cur) := by
  have h1 : ∀ l : List CClient,
      l.any (fun c => c.win == w && !c.is_dock && c.workspace == cur) =
        (l.map (fun c => (c.win, c.is_dock, c.workspace))).any
          (fun k => k.1 == w && !k.2.1 && k.2.2 == cur) := by
    intro l
    induction l with
    | nil => rfl
    | cons a l ih => simp [List.any_cons, ih]
  rw [h1 l1, h1 l2, h]

theorem focusInvB_registry_congr (s : WMState) (reg' : List CClient)
    (h : reg'.map (fun c => (c.win, c.is_dock, c.workspace)) =
      s.registry.map (fun c => (c.win, c.is_dock, c.workspace))) :
    focusInvB { s with registry := reg' } = focusInvB s := by
  unfold focusInvB
  dsimp only
  cases hf : s.focused with
  | none => rfl
  | some w => exact any_fkey_congr w s.current_workspace reg' s.registry h

theorem applyRects_fkey (ws : Int) : ∀ (cs : List CClient) (rects : List Rect),
    ((applyRects ws cs rects).1).map (fun c => (c.win, c.is_dock, c.workspace)) =
      cs.map (fun c => (c.win, c.is_dock, c.workspace)) := by
  intro cs
  induction cs with
  | nil => intro rects; rfl
  | cons c cs ih =>
    intro rects
    by_cases hws : c.workspace = ws
    · cases rects with
      | nil =>
        simp only [applyRects, if_pos hws]
        simp only [List.map_cons, ih]
      | cons r rs =>
        simp only [applyRects, if_pos hws]
        simp only [List.map_cons, ih]
    · simp only [applyRects, if_neg hws]
      simp only [List.map_cons, ih]

theorem tile_workspace_state_focusInv (s : WMState) (ws : Int) :
    focusInvB (tile_workspace_state s ws).1 = focusInvB s := by
  unfold tile_workspace_state
  split_ifs with h1
  · rfl
  · dsimp only
    split_ifs with h2
    · rfl
    · exact focusInvB_registry_congr s _ (applyRects_fkey ws s.registry _)

theorem focus_client_proper_inv (s : WMState) (win : Nat)
    (hdocks : ∀ c ∈ s.registry, c.is_dock = true → c.workspace = -1)
    (hcur : 0 ≤ s.current_workspace)
    (hinv : focusInvB s = true) :
    focusInvB (focus_client_proper s win).1 = true := by
  unfold focus_client_proper
  cases hfc : find_client s.registry win with
  | none => exact hinv
  | some c =>
    dsimp only
    split_ifs with h1 h2
    · exact hinv
    · exact hinv
    · have hm : c ∈ s.registry := List.mem_of_find?_eq_some hfc
      have hwin : c.win = win := by
        have := List.find?_some hfc
        simpa using this
      have hws : c.workspace = s.current_workspace := by
        push_neg at h1
        exact h1
      have hd : c.is_dock = false := by
        cases hdk : c.is_dock with
        | false => rfl
        | true =>
          have := hdocks c hm hdk
          rw [hws] at this
          omega
      exact focusInv_of_mem _ win c rfl hm hwin hd hws

theorem swap_clients_list_subset (cs : List CClient) (aWin bWin : Nat) :
    ∀ c ∈ swap_clients_list cs aWin bWin, c ∈ cs := by
  intro c hc
  unfold swap_clients_list at hc
  cases hfa : find_client cs aWin with
  | none => rw [hfa] at hc; exact hc
  | some a =>
    cases hfb : find_client cs bWin with
    | none => rw [hfa, hfb] at hc; exact hc
    | some b =>
      rw [hfa, hfb] at hc
      dsimp only at hc
      split_ifs at hc
      · exact hc
      · exact hc
      · obtain ⟨d, hd, heq⟩ := List.mem_map.mp hc
        by_cases h1 : d.win = aWin
        · rw [if_pos h1] at heq
          rw [← heq]
          exact List.mem_of_find?_eq_some hfb
        · rw [if_neg h1] at heq
          by_cases h2 : d.win = bWin
          · rw [if_pos h2] at heq
            rw [← heq]
            exact List.mem_of_find?_eq_some hfa
          · rw [if_neg h2] at heq
            rw [← heq]
            exact hd

theorem swap_clients_list_focusInv (s : WMState) (aWin bWin : Nat)
    (hnd : (s.registry.map (·.win)).Nodup)
    (hinv : focusInvB s = true) :
    focusInvB { s with registry := swap_clients_list s.registry aWin bWin } = true := by
  cases hf : s.focused with
  | none => exact focusInvB_none _ rfl
  | some w =>
    obtain ⟨e, he, hewin, hed, hews⟩ := focusInv_elim s w hf hinv
    unfold swap_clients_list
    cases hfa : find_client s.registry aWin with
    | none => exact focusInv_of_mem _ w e rfl he hewin hed hews
    | some a =>
      cases hfb : find_client s.registry bWin with
      | none => exact focusInv_of_mem _ w e rfl he hewin hed hews
      | some b =>
        dsimp only
        split_ifs with h1 h2
        · exact focusInv_of_mem _ w e rfl he hewin hed hews
        · exact focusInv_of_mem _ w e rfl he hewin hed hews
        · have ha : a ∈ s.registry := List.mem_of_find?_eq_some hfa
          have hb : b ∈ s.registry := List.mem_of_find?_eq_some hfb
          have hawin : a.win = aWin := by
            have := List.find?_some hfa
            simpa using this
          have hbwin : b.win = bWin := by
            have := List.find?_some hfb
            simpa using this
          by_cases hea : e.win = aWin
          · have hee : e = a := List.inj_on_of_nodup_map hnd he ha (by rw [hea, hawin])
            have hmem : a ∈ s.registry.map
                (fun c => if c.win = aWin then b else if c.win = bWin then a else c) := by
              apply List.mem_map.mpr
              refine ⟨b, hb, ?_⟩
              rw [if_neg (by rw [hbwin]; exact fun hx => h1 hx.symm), if_pos hbwin]
            refine focusInv_of_mem _ w a rfl hmem ?_ ?_ ?_
            · rw [← hee]; exact hewin
            · rw [← hee]; exact hed
            · rw [← hee]; exact hews
          · by_cases heb : e.win = bWin
            · have hee : e = b := List.inj_on_of_nodup_map hnd he hb (by rw [heb, hbwin])
              have hmem : b ∈ s.registry.map
                  (fun c => if c.win = aWin then b else if c.win = bWin then a else c) := by
                apply List.mem_map.mpr
                refine ⟨a, ha, ?_⟩
                rw [if_pos hawin]
              refine focusInv_of_mem _ w b rfl hmem ?_ ?_ ?_
              · rw [← hee]; exact hewin
              · rw [← hee]; exact hed
              · rw [← hee]; exact hews
            · have hmem : e ∈ s.registry.map
                  (fun c => if c.win = aWin then b else if c.win = bWin then a else c) := by
                apply List.mem_map.mpr
                refine ⟨e, he, ?_⟩
                rw [if_neg hea, if_neg heb]
              exact focusInv_of_mem _ w e rfl hmem hewin hed hews

theorem cycInner_some (cs : List CClient) (ws : Int) (start : Nat) (fwd : Bool) :
    ∀ fuel c r, cycInner cs ws start fwd fuel c = some r →
      onWsIdx cs ws r = true ∨ r = start := by
  intro fuel
  induction fuel with
  | zero =>
    intro c r h
    simp [cycInner] at h
  | succ fuel ih =>
    intro c r h
    rw [cycInner_succ] at h
    by_cases h0 : onWsIdx cs ws c = true
    · rw [if_pos h0] at h
      obtain rfl := Option.some.inj h
      exact Or.inl h0
    · rw [if_neg h0] at h
      by_cases h1 : stepIdx cs.length fwd c = start
      · rw [if_pos h1] at h
        obtain rfl := Option.some.inj h
        exact Or.inr h1
      · rw [if_neg h1] at h
        exact ih _ _ h

theorem cycOuter_some (cs : List CClient) (ws : Int) (start : Nat) (fwd : Bool) :
    ∀ fuel c r, cycOuter cs ws start fwd fuel c = some r →
      onWsIdx cs ws r = true ∨ r = start := by
  intro fuel
  induction fuel with
  | zero =>
    intro c r h
    simp [cycOuter] at h
  | succ fuel ih =>
    intro c r h
    rw [cycOuter_succ] at h
    cases hin : cycInner cs ws start fwd (cs.length + 1) (stepIdx cs.length fwd c) with
    | none =>
      rw [hin] at h
      simp at h
    | some c2 =>
      rw [hin] at h
      dsimp only at h
      by_cases h2 : onWsIdx cs ws c2 = true
      · rw [if_pos h2] at h
        obtain rfl := Option.some.inj h
        exact Or.inl h2
      · rw [if_neg h2] at h
        by_cases h3 : c2 = start
        · rw [if_pos h3] at h
          obtain rfl := Option.some.inj h
          exact Or.inr h3
        · rw [if_neg h3] at h
          exact ih _ _ h

theorem cycle_focus_focusInv (s : WMState) (fwd : Bool)
    (hdocks : ∀ c ∈ s.registry, c.is_dock = true → c.workspace = -1)
    (hcur : 0 ≤ s.current_workspace)
    (hfoc : s.focused ≠ none)
    (hinv : focusInvB s = true) :
    ((cycle_focus s fwd).map (fun p => focusInvB p.1)).getD true = true := by
  unfold cycle_focus
  by_cases hguard : s.registry.isEmpty = true ∨ s.cycling = false
  · rw [if_pos hguard]
    simpa using hinv
  · rw [if_neg hguard]
    obtain ⟨w, hw⟩ : ∃ w, s.focused = some w := by
      cases hff : s.focused with
      | none => exact absurd hff hfoc
      | some w => exact ⟨w, rfl⟩
    rw [hw]
    dsimp only
    obtain ⟨e, he, hewin, hed, hews⟩ := focusInv_elim s w hw hinv
    have hlt : s.registry.findIdx (fun c => c.win == w) < s.registry.length :=
      List.findIdx_lt_length_of_exists ⟨e, he, by rw [hewin]; exact beq_self_eq_true w⟩
    cases hout : cycOuter s.registry s.current_workspace
        (s.registry.findIdx (fun c => c.win == w)) fwd (s.registry.length + 1)
        (s.registry.findIdx (fun c => c.win == w)) with
    | none =>
      rfl
    | some cIdx =>
      dsimp only
      have hcases := cycOuter_some s.registry s.current_workspace _ fwd _ _ _ hout
      have hclt : cIdx < s.registry.length := by
        rcases hcases with hon | heq
        · unfold onWsIdx at hon
          cases hg : s.registry[cIdx]? with
          | none => rw [hg] at hon; simp at hon
          | some c =>
            have := List.getElem?_eq_some_iff.mp hg
            exact this.1
        · rw [heq]
          exact hlt
      rw [List.getElem?_eq_getElem hclt]
      dsimp only
      by_cases hsame : some w = some ((s.registry[cIdx]).win)
      · rw [if_pos hsame]
        simpa using hinv
      · rw [if_neg hsame]
        show focusInvB { s with focused := some ((s.registry[cIdx]).win) } = true
        rcases hcases with hon | heq
        · have hm : s.registry[cIdx] ∈ s.registry := List.getElem_mem hclt
          have hws2 : (s.registry[cIdx]).workspace = s.current_workspace := by
            unfold onWsIdx at hon
            rw [List.getElem?_eq_getElem hclt] at hon
            simpa using hon
          have hd : (s.registry[cIdx]).is_dock = false := by
            cases hdk : (s.registry[cIdx]).is_dock with
            | false => rfl
            | true =>
              have := hdocks _ hm hdk
              rw [hws2] at this
              omega
          exact focusInv_of_mem _ ((s.registry[cIdx]).win) (s.registry[cIdx]) rfl hm rfl
            hd hws2
        · exfalso
          apply hsame
          have hwin2 : ((s.registry[cIdx]).win == w) = true := by
            subst heq
            exact List.findIdx_getElem (w := hlt)
          have := beq_iff_eq.mp hwin2
          rw [this]

theorem manage_focusInv (s : WMState) (win : Nat) (ok : Bool) (wa : WinAttrs)
    (props : XProps) (hinv : focusInvB s = true) :
    focusInvB (manage s win ok wa props).1 = true := by
  unfold manage
  dsimp only
  split_ifs with h1 h2 h3 h4 h5
  all_goals try exact hinv
  · cases hff : s.focused with
    | none => exact focusInvB_none _ rfl
    | some w =>
      rw [focusInvB_some s w hff] at hinv
      rw [focusInvB_some _ w rfl]
      dsimp only
      rw [List.any_cons, hinv]
      simp
  all_goals first
    | (rw [tile_workspace_state_focusInv]
       exact focusInv_of_mem _ win _ rfl (List.mem_cons_self _ _)
         (by simp [get_window_type_and_strut_win])
         (Bool.eq_false_iff.mpr h3)
         (by simp [get_window_type_and_strut_workspace]))
    | exact focusInv_of_mem _ win _ rfl (List.mem_cons_self _ _)
        (by simp [get_window_type_and_strut_win])
        (Bool.eq_false_iff.mpr h3)
        (by simp [get_window_type_and_strut_workspace])

theorem unmanage_focusInv (s : WMState) (win : Nat)
    (hnd : (s.registry.map (·.win)).Nodup)
    (hdocks : ∀ c ∈ s.registry, c.is_dock = true → c.workspace = -1)
    (hcur : 0 ≤ s.current_workspace)
    (hinv : focusInvB s = true) :
    focusInvB (unmanage s win).1 = true := by
  unfold unmanage
  cases hfc : find_client s.registry win with
  | none => exact hinv
  | some c =>
    dsimp only
    cases hff : s.focused with
    | none =>
      dsimp only
      split_ifs
      · rw [tile_workspace_state_focusInv]
        exact focusInvB_none _ rfl
      · exact focusInvB_none _ rfl
    | some fw =>
      dsimp only
      cases hfc2 : find_client (s.registry.eraseP (fun cc => cc.win == win)) fw with
      | some c' =>
        dsimp only
        have hc'r : c' ∈ s.registry.eraseP (fun cc => cc.win == win) :=
          List.mem_of_find?_eq_some hfc2
        have hc's : c' ∈ s.registry := (List.eraseP_sublist _).subset hc'r
        have hc'w : c'.win = fw := by
          have := List.find?_some hfc2
          simpa using this
        obtain ⟨e, he, hewin, hed, hews⟩ := focusInv_elim s fw hff hinv
        have hee : e = c' := List.inj_on_of_nodup_map hnd he hc's (by rw [hewin, hc'w])
        split_ifs
        · rw [tile_workspace_state_focusInv]
          refine focusInv_of_mem _ fw c' rfl ?_ hc'w ?_ ?_
          · exact hc'r
          · rw [← hee]; exact hed
          · rw [← hee]; exact hews
        · refine focusInv_of_mem _ fw c' rfl ?_ hc'w ?_ ?_
          · exact hc'r
          · rw [← hee]; exact hed
          · rw [← hee]; exact hews
      | none =>
        dsimp only
        cases hnf : (s.registry.eraseP (fun cc => cc.win == win)).find?
            (fun cc => cc.workspace == s.current_workspace) with
        | none =>
          simp only [Option.map_none']
          split_ifs
          · rw [tile_workspace_state_focusInv]
            exact focusInvB_none _ rfl
          · exact focusInvB_none _ rfl
        | some cc =>
          simp only [Option.map_some']
          have hccr : cc ∈ s.registry.eraseP (fun c2 => c2.win == win) :=
            List.mem_of_find?_eq_some hnf
          have hccs : cc ∈ s.registry := (List.eraseP_sublist _).subset hccr
          have hccw : cc.workspace = s.current_workspace := by
            have := List.find?_some hnf
            simpa using this
          have hccd : cc.is_dock = false := by
            cases hdk : cc.is_dock with
            | false => rfl
            | true =>
              have := hdocks cc hccs hdk
              rw [hccw] at this
              omega
          split_ifs
          · rw [tile_workspace_state_focusInv]
            refine focusInv_of_mem _ cc.win cc rfl ?_ rfl ?_ ?_
            · exact hccr
            · exact hccd
            · exact hccw
          · refine focusInv_of_mem _ cc.win cc rfl ?_ rfl ?_ ?_
            · exact hccr
            · exact hccd
            · exact hccw

theorem switch_workspace_focusInv (s : WMState) (ws : Int)
    (hdocks : ∀ c ∈ s.registry, c.is_dock = true → c.workspace = -1)
    (hinv : focusInvB s = true) :
    focusInvB (switch_workspace s ws).1 = true := by
  unfold switch_workspace
  split_ifs with h1 h2
  · exact hinv
  · exact hinv
  · dsimp only
    cases hnf : s.registry.find? (fun c => c.workspace == ws) with
    | none =>
      simp only [Option.map_none']
      split_ifs
      · rw [tile_workspace_state_focusInv]
        exact focusInvB_none _ rfl
      · exact focusInvB_none _ rfl
    | some cc =>
      simp only [Option.map_some']
      have hccs : cc ∈ s.registry := List.mem_of_find?_eq_some hnf
      have hccw : cc.workspace = ws := by
        have := List.find?_some hnf
        simpa using this
      have hws0 : 0 ≤ ws := by
        push_neg at h1
        exact h1.1
      have hccd : cc.is_dock = false := by
        cases hdk : cc.is_dock with
        | false => rfl
        | true =>
          have := hdocks cc hccs hdk
          rw [hccw] at this
          omega
      split_ifs
      · rw [tile_workspace_state_focusInv]
        refine focusInv_of_mem _ cc.win cc rfl ?_ rfl ?_ ?_
        · exact hccs
        · exact hccd
        · exact hccw
      · refine focusInv_of_mem _ cc.win cc rfl ?_ rfl ?_ ?_
        · exact hccs
        · exact hccd
        · exact hccw

theorem focusInvB_reserved (s : WMState) (r : Reserved) :
    focusInvB { s with reserved := r } = focusInvB s := by
  unfold focusInvB
  dsimp only

theorem docks_fkey_congr (l1 l2 : List CClient)
    (h : l1.map (fun c => (c.win, c.is_dock, c.workspace)) =
      l2.map (fun c => (c.win, c.is_dock, c.workspace)))
    (hd : ∀ c ∈ l2, c.is_dock = true → c.workspace = -1) :
    ∀ c ∈ l1, c.is_dock = true → c.workspace = -1 := by
  intro c hc hdk
  have hmem : (c.win, c.is_dock, c.workspace) ∈
      l1.map (fun c => (c.win, c.is_dock, c.workspace)) :=
    List.mem_map_of_mem _ hc
  rw [h] at hmem
  obtain ⟨c', hc', heq⟩ := List.mem_map.mp hmem
  simp only [Prod.mk.injEq] at heq
  rw [← heq.2.2]
  apply hd c' hc'
  rw [heq.2.1]
  exact hdk

theorem tile_workspace_state_fields (s : WMState) (ws : Int) :
    (tile_workspace_state s ws).1.current_workspace = s.current_workspace ∧
    (tile_workspace_state s ws).1.focused = s.focused ∧
    (tile_workspace_state s ws).1.registry.map (fun c => (c.win, c.is_dock, c.workspace)) =
      s.registry.map (fun c => (c.win, c.is_dock, c.workspace)) := by
  unfold tile_workspace_state
  split_ifs
  · exact ⟨rfl, rfl, rfl⟩
  · dsimp only
    split_ifs
    · exact ⟨rfl, rfl, rfl⟩
    · exact ⟨rfl, rfl, applyRects_fkey ws s.registry _⟩

theorem swap_keep_focus_focusInv (s : WMState) (aWin bWin : Nat)
    (hnd : (s.registry.map (·.win)).Nodup)
    (hdocks : ∀ c ∈ s.registry, c.is_dock = true → c.workspace = -1)
    (hcur : 0 ≤ s.current_workspace)
    (hinv : focusInvB s = true) :
    focusInvB (swap_clients_keep_focus s aWin bWin).1 = true := by
  unfold swap_clients_keep_focus
  cases hfa : find_client s.registry aWin with
  | none => exact hinv
  | some a =>
    cases hfb : find_client s.registry bWin with
    | none => exact hinv
    | some b =>
      dsimp only
      have hdocks1 : ∀ c ∈ swap_clients_list s.registry aWin bWin,
          c.is_dock = true → c.workspace = -1 :=
        fun c hc hdk => hdocks c (swap_clients_list_subset s.registry aWin bWin c hc) hdk
      have hinv1 : focusInvB { s with registry := swap_clients_list s.registry aWin bWin } =
          true := swap_clients_list_focusInv s aWin bWin hnd hinv
      split_ifs with h1 h2 h3 h4
      · exact hinv
      · exact hinv
      · exact hinv
      · -- tiling branch
        apply focus_client_proper_inv
        · intro c hc hdk
          dsimp only at hc
          refine docks_fkey_congr _ (swap_clients_list s.registry aWin bWin) ?_ hdocks1 c hc hdk
          exact (tile_workspace_state_fields _ _).2.2
        · dsimp only
          rw [(tile_workspace_state_fields _ _).1]
          exact hcur
        · rw [focusInvB_reserved, tile_workspace_state_focusInv]
          exact hinv1
      · -- no tiling
        apply focus_client_proper_inv
        · intro c hc hdk
          exact hdocks1 c hc hdk
        · exact hcur
        · rw [focusInvB_reserved]
          exact hinv1

/-- C3 (amended): starting from a well-formed state whose focus invariant
holds, the invariant (a non-null focus refers to a registry member that is
not a dock and is on the current workspace) is preserved by `manage`,
`unmanage`, `switch_workspace`, `focus_client_proper`,
`swap_clients_keep_focus`, and by any terminating `cycle_focus` step taken
with a non-null focus.  (`move_focused_to_workspace` does not preserve it:
see the counterexample.) -/
theorem C3_amended_focus_invariant (s : WMState) (hwf : wfState s)
    (hinv : focusInvB s = true) :
    (∀ win ok wa props, focusInvB (manage s win ok wa props).1 = true) ∧
    (∀ win, focusInvB (unmanage s win).1 = true) ∧
    (∀ ws, focusInvB (switch_workspace s ws).1 = true) ∧
    (∀ win, focusInvB (focus_client_proper s win).1 = true) ∧
    (∀ aWin bWin, focusInvB (swap_clients_keep_focus s aWin bWin).1 = true) ∧
    (∀ fwd, s.focused ≠ none →
      ((cycle_focus s fwd).map (fun p => focusInvB p.1)).getD true = true) := by
  obtain ⟨hnd, hdocks, hcur, hcurlt⟩ := hwf
  exact ⟨fun win ok wa props => manage_focusInv s win ok wa props hinv,
    fun win => unmanage_focusInv s win hnd hdocks hcur hinv,
    fun ws => switch_workspace_focusInv s ws hdocks hinv,
    fun win => focus_client_proper_inv s win hdocks hcur hinv,
    fun aWin bWin => swap_keep_focus_focusInv s aWin bWin hnd hdocks hcur hinv,
    fun fwd hf => cycle_focus_focusInv s fwd hdocks hcur hf hinv⟩

/-- C3 counterexample: `move_focused_to_workspace` retags the focused
client to another workspace but leaves the focus pointer on it, breaking
the invariant that the focused client is on the current workspace. -/
theorem C3_counterexample :
    wfState { registry := [{ win := 1 }], focused := some 1,
              tagTiling := fun _ => false, layoutOf := fun _ => 0,
              sw := 800, sh := 600 } ∧
    focusInvB { registry := [{ win := 1 }], focused := some 1,
                tagTiling := fun _ => false, layoutOf := fun _ => 0,
                sw := 800, sh := 600 } = true ∧
    focusInvB (move_focused_to_workspace
      { registry := [{ win := 1 }], focused := some 1,
        tagTiling := fun _ => false, layoutOf := fun _ => 0,
        sw := 800, sh := 600 } 1).1 = false :=
  ⟨⟨by decide, by decide, by decide, by decide⟩, by decide, by decide⟩

/-- Witness instantiating `C3_amended_focus_invariant` at a concrete
one-client state. -/
theorem C3_witness :
    (∀ win ok wa props, focusInvB (manage
      { registry := [{ win := 1 }], focused := some 1,
        tagTiling := fun _ => false, layoutOf := fun _ => 0,
        sw := 800, sh := 600 } win ok wa props).1 = true) ∧
    (∀ win, focusInvB (unmanage
      { registry := [{ win := 1 }], focused := some 1,
        tagTiling := fun _ => false, layoutOf := fun _ => 0,
        sw := 800, sh := 600 } win).1 = true) ∧
    (∀ ws, focusInvB (switch_workspace
      { registry := [{ win := 1 }], focused := some 1,
        tagTiling := fun _ => false, layoutOf := fun _ => 0,
        sw := 800, sh := 600 } ws).1 = true) ∧
    (∀ win, focusInvB (focus_client_proper
      { registry := [{ win := 1 }], focused := some 1,
        tagTiling := fun _ => false, layoutOf := fun _ => 0,
        sw := 800, sh := 600 } win).1 = true) ∧
    (∀ aWin bWin, focusInvB (swap_clients_keep_focus
      { registry := [{ win := 1 }], focused := some 1,
        tagTiling := fun _ => false, layoutOf := fun _ => 0,
        sw := 800, sh := 600 } aWin bWin).1 = true) ∧
    (∀ fwd, ({ registry := [{ win := 1 }], focused := some 1,
               tagTiling := fun _ => false, layoutOf := fun _ => 0,
               sw := 800, sh := 600 } : WMState).focused ≠ none →
      ((cycle_focus
        { registry := [{ win := 1 }], focused := some 1,
          tagTiling := fun _ => false, layoutOf := fun _ => 0,
          sw := 800, sh := 600 } fwd).map (fun p => focusInvB p.1)).getD true = true) :=
  C3_amended_focus_invariant
    { registry := [{ win := 1 }], focused := some 1,
      tagTiling := fun _ => false, layoutOf := fun _ => 0,
      sw := 800, sh := 600 }
    ⟨by decide, by decide, by decide, by decide⟩ (by decide)

/-! ## Claim C7 -/

namespace Reg

theorem listNext_mem : ∀ (xs : List Nat) (a y : Nat), listNext xs a = some y → y ∈ xs := by
  intro xs
  induction xs with
  | nil => intro a y h; simp [listNext] at h
  | cons x rest ih =>
    intro a y h
    cases rest with
    | nil =>
      unfold listNext at h
      split_ifs at h <;> simp at h
    | cons z t =>
      unfold listNext at h
      split_ifs at h with h1
      · obtain rfl := Option.some.inj h
        exact List.mem_cons_of_mem _ (List.mem_cons_self _ _)
      · exact List.mem_cons_of_mem _ (ih a y h)

theorem listNext_not_mem : ∀ (xs : List Nat) (a : Nat), a ∉ xs → listNext xs a = none := by
  intro xs
  induction xs with
  | nil => intro a _; rfl
  | cons x rest ih =>
    intro a ha
    cases rest with
    | nil =>
      unfold listNext
      split_ifs <;> rfl
    | cons z t =>
      unfold listNext
      rw [if_neg (fun he : a = x => ha (by rw [he]; exact List.mem_cons_self _ _))]
      exact ih a (fun hm => ha (List.mem_cons_of_mem _ hm))

theorem listNext_ne_self : ∀ (xs : List Nat) (a : Nat), xs.Nodup →
    listNext xs a ≠ some a := by
  intro xs
  induction xs with
  | nil => intro a _ h; simp [listNext] at h
  | cons x rest ih =>
    intro a hnd h
    cases rest with
    | nil =>
      unfold listNext at h
      split_ifs at h <;> simp at h
    | cons z t =>
      unfold listNext at h
      split_ifs at h with h1
      · obtain rfl := Option.some.inj h
        subst h1
        exact (List.nodup_cons.mp hnd).1 (List.mem_cons_self _ _)
      · exact ih a (List.nodup_cons.mp hnd).2 h

theorem listPrevAux_mem : ∀ (xs : List Nat) (p : Option Nat) (a y : Nat),
    listPrevAux p xs a = some y → some y = p ∨ y ∈ xs := by
  intro xs
  induction xs with
  | nil => intro p a y h; simp [listPrevAux] at h
  | cons x rest ih =>
    intro p a y h
    unfold listPrevAux at h
    split_ifs at h with h1
    · exact Or.inl h.symm
    · rcases ih (some x) a y h with h2 | h2
      · obtain rfl := Option.some.inj h2.symm
        exact Or.inr (List.mem_cons_self _ _)
      · exact Or.inr (List.mem_cons_of_mem _ h2)

theorem listPrevAux_ne : ∀ (xs : List Nat) (p : Option Nat) (a : Nat), xs.Nodup →
    p ≠ some a → listPrevAux p xs a ≠ some a := by
  intro xs
  induction xs with
  | nil => intro p a _ _ h; simp [listPrevAux] at h
  | cons x rest ih =>
    intro p a hnd hp h
    unfold listPrevAux at h
    split_ifs at h with h1
    · exact hp h
    · exact ih (some x) a (List.nodup_cons.mp hnd).2 (fun he => h1 (Option.some.inj he).symm) h

theorem listPrev_ne_self (xs : List Nat) (a : Nat) (hnd : xs.Nodup) :
    listPrev xs a ≠ some a :=
  listPrevAux_ne xs none a hnd (by simp)

/-- Duality: if `j` follows `i` then `i` precedes `j`. -/
theorem listNext_prevAux : ∀ (xs : List Nat) (p : Option Nat) (i j : Nat), xs.Nodup →
    listNext xs i = some j → listPrevAux p xs j = some i := by
  intro xs
  induction xs with
  | nil => intro p i j _ h; simp [listNext] at h
  | cons x rest ih =>
    intro p i j hnd h
    cases rest with
    | nil =>
      unfold listNext at h
      split_ifs at h <;> simp at h
    | cons z t =>
      unfold listNext at h
      split_ifs at h with h1
      · subst h1
        have hz := Option.some.inj h
        subst hz
        have hne : z ≠ i := fun he =>
          (List.nodup_cons.mp hnd).1 (by rw [← he]; exact List.mem_cons_self _ _)
        unfold listPrevAux
        rw [if_neg hne]
        unfold listPrevAux
        rw [if_pos rfl]
      · have hj : j ∈ z :: t := listNext_mem _ i j h
        have hx : x ∉ z :: t := (List.nodup_cons.mp hnd).1
        unfold listPrevAux
        rw [if_neg (fun he : j = x => hx (he ▸ hj))]
        exact ih (some x) i j (List.nodup_cons.mp hnd).2 h

theorem listNext_listPrev (xs : List Nat) (i j : Nat) (hnd : xs.Nodup)
    (h : listNext xs i = some j) : listPrev xs j = some i :=
  listNext_prevAux xs none i j hnd h

/-- Converse duality: if `i` precedes `j` then `j` follows `i`. -/
theorem listPrevAux_next : ∀ (xs : List Nat) (p : Option Nat) (i j : Nat), xs.Nodup →
    listPrevAux p xs j = some i →
    (p = some i ∧ xs.head? = some j) ∨ listNext xs i = some j := by
  intro xs
  induction xs with
  | nil => intro p i j _ h; simp [listPrevAux] at h
  | cons x rest ih =>
    intro p i j hnd h
    unfold listPrevAux at h
    split_ifs at h with h1
    · subst h1
      exact Or.inl ⟨h, rfl⟩
    · rcases ih (some x) i j (List.nodup_cons.mp hnd).2 h with ⟨hx, hh⟩ | h2
      · obtain rfl := Option.some.inj hx
        cases rest with
        | nil => simp at hh
        | cons z t =>
          obtain rfl := Option.some.inj hh
          refine Or.inr ?_
          unfold listNext
          rw [if_pos rfl]
      · refine Or.inr ?_
        cases rest with
        | nil => simp [listNext] at h2
        | cons z t =>
          have hi : i ≠ x := by
            intro he
            subst he
            rw [listNext_not_mem _ i (List.nodup_cons.mp hnd).1] at h2
            exact absurd h2 (by simp)
          unfold listNext
          rw [if_neg hi]
          exact h2

theorem listPrev_listNext (xs : List Nat) (i j : Nat) (hnd : xs.Nodup)
    (h : listPrev xs j = some i) : listNext xs i = some j := by
  rcases listPrevAux_next xs none i j hnd h with ⟨hx, _⟩ | h2
  · exact absurd hx (by simp)
  · exact h2

/-- No two-cycles in a duplicate-free chain. -/
theorem listNext_no_two_cycle : ∀ (xs : List Nat) (i j : Nat), xs.Nodup → i ≠ j →
    listNext xs i = some j → listNext xs j = some i → False := by
  intro xs
  induction xs with
  | nil => intro i j _ _ h _; simp [listNext] at h
  | cons x rest ih =>
    intro i j hnd hij hi hj
    cases rest with
    | nil =>
      unfold listNext at hi
      split_ifs at hi <;> simp at hi
    | cons z t =>
      by_cases hix : i = x
      · subst hix
        unfold listNext at hi
        rw [if_pos rfl] at hi
        obtain rfl := Option.some.inj hi
        unfold listNext at hj
        rw [if_neg (Ne.symm hij)] at hj
        cases t with
        | nil =>
          unfold listNext at hj
          split_ifs at hj <;> simp at hj
        | cons w u =>
          unfold listNext at hj
          rw [if_pos rfl] at hj
          obtain rfl := Option.some.inj hj
          exact (List.nodup_cons.mp hnd).1
            (List.mem_cons_of_mem _ (List.mem_cons_self _ _))
      · by_cases hjx : j = x
        · subst hjx
          unfold listNext at hj
          rw [if_pos rfl] at hj
          obtain rfl := Option.some.inj hj
          unfold listNext at hi
          rw [if_neg hix] at hi
          have : j ∈ z :: t := by
            cases t with
            | nil =>
              unfold listNext at hi
              split_ifs at hi <;> simp at hi
            | cons w u =>
              unfold listNext at hi
              split_ifs at hi with h3
              · obtain rfl := Option.some.inj hi
                exact List.mem_cons_of_mem _ (List.mem_cons_self _ _)
              · exact List.mem_cons_of_mem _ (listNext_mem _ _ _ hi)
          exact (List.nodup_cons.mp hnd).1 this
        · unfold listNext at hi hj
          rw [if_neg hix] at hi
          rw [if_neg hjx] at hj
          exact ih i j (List.nodup_cons.mp hnd).2 hij hi hj

/-- A well-formed chain determines every member's pointers. -/
theorem wr_eval (st : Nat → Node) (j : Nat) (f : Node → Node) (i : Nat) :
    wr st j f i = if i = j then f (st i) else st i := rfl

theorem wrOpt_eval (st : Nat → Node) (o : Option Nat) (f : Node → Node) (i : Nat) :
    wrOpt st o f i = if o = some i then f (st i) else st i := by
  cases o with
  | none =>
    rw [if_neg (by simp)]
    rfl
  | some j =>
    show wr st j f i = _
    rw [wr_eval]
    by_cases h : i = j
    · rw [if_pos h, if_pos (show some j = some i from by rw [h])]
    · rw [if_neg h, if_neg (fun he : some j = some i => h (Option.some.inj he).symm)]

theorem chainB_determ (st : Nat → Node) : ∀ (xs : List Nat) (p : Option Nat),
    chainB st p xs = true → xs.Nodup →
    ∀ i ∈ xs, (st i).prev = listPrevAux p xs i ∧ (st i).next = listNext xs i := by
  intro xs
  induction xs with
  | nil => intro p _ _ i hi; exact absurd hi (List.not_mem_nil i)
  | cons x rest ih =>
    intro p hch hnd i hi
    unfold chainB at hch
    simp only [Bool.and_eq_true, beq_iff_eq] at hch
    obtain ⟨⟨hprev, hnext⟩, hch2⟩ := hch
    rcases List.mem_cons.mp hi with rfl | hi2
    · constructor
      · unfold listPrevAux
        rw [if_pos rfl]
        exact hprev
      · cases rest with
        | nil =>
          rw [hnext]
          unfold listNext
          simp
        | cons z t =>
          rw [hnext]
          unfold listNext
          simp
    · have hix : i ≠ x := by
        intro he
        subst he
        exact (List.nodup_cons.mp hnd).1 hi2
      obtain ⟨ih1, ih2⟩ := ih (some x) hch2 (List.nodup_cons.mp hnd).2 i hi2
      constructor
      · unfold listPrevAux
        rw [if_neg hix]
        exact ih1
      · cases rest with
        | nil => exact absurd hi2 (List.not_mem_nil i)
        | cons z t =>
          unfold listNext
          rw [if_neg hix]
          exact ih2

end Reg

namespace Reg

theorem swap_head (r : State) (a b : Nat) (hab : a ≠ b)
    (hws : (r.st a).workspace = (r.st b).workspace) :
    (swap_clients r a b).head =
      if r.head = some a then some b
      else if r.head = some b then some a
      else r.head := by
  unfold swap_clients
  rw [if_neg hab, if_neg (not_not_intro hws)]

/-- The splice with `a` immediately before `b`, node by node. -/
theorem swap_case1_st (r : State) (a b : Nat) (hab : a ≠ b)
    (hws : (r.st a).workspace = (r.st b).workspace)
    (hadj1 : (r.st a).next = some b)
    (E1 : (r.st a).prev ≠ some a) (E2 : (r.st a).prev ≠ some b)
    (E3 : (r.st b).next ≠ some a) (E4 : (r.st b).next ≠ some b) :
    ∀ i, (swap_clients r a b).st i =
      if i = a then ⟨some b, (r.st b).next, (r.st a).workspace⟩
      else if i = b then ⟨(r.st a).prev, some a, (r.st b).workspace⟩
      else ⟨(if (r.st b).next = some i then some a else (r.st i).prev),
            (if (r.st a).prev = some i then some b else (r.st i).next),
            (r.st i).workspace⟩ := by
  intro i
  unfold swap_clients
  rw [if_neg hab, if_neg (not_not_intro hws)]
  dsimp only
  rw [if_pos hadj1]
  simp only [wr_eval, wrOpt_eval]
  split_ifs <;> (try dsimp only) <;> (try subst_vars) <;> first
    | rfl
    | simp_all

/-- The splice with `b` immediately before `a`, node by node. -/
theorem swap_case2_st (r : State) (a b : Nat) (hab : a ≠ b)
    (hws : (r.st a).workspace = (r.st b).workspace)
    (hadj2 : (r.st b).next = some a)
    (hnadj1 : (r.st a).next ≠ some b)
    (E1 : (r.st a).next ≠ some a)
    (E2 : (r.st b).prev ≠ some a) (E3 : (r.st b).prev ≠ some b) :
    ∀ i, (swap_clients r a b).st i =
      if i = a then ⟨(r.st b).prev, some b, (r.st a).workspace⟩
      else if i = b then ⟨some a, (r.st a).next, (r.st b).workspace⟩
      else ⟨(if (r.st a).next = some i then some b else (r.st i).prev),
            (if (r.st b).prev = some i then some a else (r.st i).next),
            (r.st i).workspace⟩ := by
  intro i
  unfold swap_clients
  rw [if_neg hab, if_neg (not_not_intro hws)]
  dsimp only
  rw [if_neg hnadj1, if_pos hadj2]
  simp only [wr_eval, wrOpt_eval]
  split_ifs <;> (try dsimp only) <;> (try subst_vars) <;> first
    | rfl
    | simp_all

set_option maxHeartbeats 2000000 in
/-- The non-adjacent splice, node by node. -/
theorem swap_case3_st (r : State) (a b : Nat) (hab : a ≠ b)
    (hws : (r.st a).workspace = (r.st b).workspace)
    (hnadj1 : (r.st a).next ≠ some b) (hnadj2 : (r.st b).next ≠ some a)
    (Ea1 : (r.st a).prev ≠ some a) (Ea2 : (r.st a).next ≠ some a)
    (Eb1 : (r.st b).prev ≠ some b) (Eb2 : (r.st b).next ≠ some b)
    (Eab : (r.st a).prev ≠ some b) (Eba : (r.st b).prev ≠ some a) :
    ∀ i, (swap_clients r a b).st i =
      if i = a then ⟨(r.st b).prev, (r.st b).next, (r.st a).workspace⟩
      else if i = b then ⟨(r.st a).prev, (r.st a).next, (r.st b).workspace⟩
      else ⟨(if (r.st b).next = some i then some a
             else if (r.st a).next = some i then some b
             else (r.st i).prev),
            (if (r.st b).prev = some i then some a
             else if (r.st a).prev = some i then some b
             else (r.st i).next),
            (r.st i).workspace⟩ := by
  intro i
  unfold swap_clients
  rw [if_neg hab, if_neg (not_not_intro hws)]
  dsimp only
  rw [if_neg hnadj1, if_neg hnadj2]
  simp only [wr_eval, wrOpt_eval]
  split_ifs <;> (try dsimp only) <;> (try subst_vars) <;> first
    | rfl
    | simp_all

/-- The head update of the splice is an involution. -/
theorem swap_head_invol (h0 : Option Nat) (a b : Nat) (hab : a ≠ b) :
    (if (if h0 = some a then some b else if h0 = some b then some a else h0) = some a
       then some b
     else if (if h0 = some a then some b else if h0 = some b then some a else h0) = some b
       then some a
     else if h0 = some a then some b else if h0 = some b then some a else h0) = h0 := by
  have hba : b ≠ a := Ne.symm hab
  by_cases h1 : h0 = some a
  · simp [h1, hba]
  · by_cases h2 : h0 = some b
    · simp [h1, h2, hab]
    · simp [h1, h2]

end Reg

/-- C7: starting from a registry that represents the duplicate-free chain
`xs`, swapping two distinct same-workspace members twice restores the head
pointer and every node of the heap exactly, covering all three splice
cases. -/
theorem C7_swap_clients_involutive (r : Reg.State) (xs : List Nat) (a b : Nat)
    (hrep : Reg.represents r xs) (ha : a ∈ xs) (hb : b ∈ xs) (hab : a ≠ b)
    (hws : (r.st a).workspace = (r.st b).workspace) :
    (Reg.swap_clients (Reg.swap_clients r a b) a b).head = r.head ∧
    (∀ i, (Reg.swap_clients (Reg.swap_clients r a b) a b).st i = r.st i) := by
  obtain ⟨hhead, hchain, hnd⟩ := hrep
  have hdet := Reg.chainB_determ r.st xs none hchain hnd
  obtain ⟨hpa, hna⟩ := hdet a ha
  obtain ⟨hpb, hnb⟩ := hdet b hb
  have hba : b ≠ a := Ne.symm hab
  have Epaa : (r.st a).prev ≠ some a := by
    rw [hpa]
    exact Reg.listPrev_ne_self xs a hnd
  have Enaa : (r.st a).next ≠ some a := by
    rw [hna]
    exact Reg.listNext_ne_self xs a hnd
  have Epbb : (r.st b).prev ≠ some b := by
    rw [hpb]
    exact Reg.listPrev_ne_self xs b hnd
  have Enbb : (r.st b).next ≠ some b := by
    rw [hnb]
    exact Reg.listNext_ne_self xs b hnd
  have Ipa : ∀ i, (r.st a).prev = some i → (r.st i).next = some a := by
    intro i hi
    rw [hpa] at hi
    have hmem : i ∈ xs := by
      rcases Reg.listPrevAux_mem xs none a i hi with h | h
      · exact absurd h (by simp)
      · exact h
    rw [(hdet i hmem).2]
    exact Reg.listPrev_listNext xs i a hnd hi
  have Ipb : ∀ i, (r.st b).prev = some i → (r.st i).next = some b := by
    intro i hi
    rw [hpb] at hi
    have hmem : i ∈ xs := by
      rcases Reg.listPrevAux_mem xs none b i hi with h | h
      · exact absurd h (by simp)
      · exact h
    rw [(hdet i hmem).2]
    exact Reg.listPrev_listNext xs i b hnd hi
  have Ina : ∀ i, (r.st a).next = some i → (r.st i).prev = some a := by
    intro i hi
    rw [hna] at hi
    have hmem : i ∈ xs := Reg.listNext_mem xs a i hi
    rw [(hdet i hmem).1]
    exact Reg.listNext_prevAux xs none a i hnd hi
  have Inb : ∀ i, (r.st b).next = some i → (r.st i).prev = some b := by
    intro i hi
    rw [hnb] at hi
    have hmem : i ∈ xs := Reg.listNext_mem xs b i hi
    rw [(hdet i hmem).1]
    exact Reg.listNext_prevAux xs none b i hnd hi
  have hh1 := Reg.swap_head r a b hab hws
  by_cases hadj1 : (r.st a).next = some b
  · -- a immediately before b
    have hna' : Reg.listNext xs a = some b := by rw [← hna]; exact hadj1
    have E2 : (r.st a).prev ≠ some b := by
      intro he
      exact Reg.listNext_no_two_cycle xs a b hnd hab hna' (by rw [← hnb]; exact Ipa b he)
    have E3 : (r.st b).next ≠ some a := by
      intro he
      exact Reg.listNext_no_two_cycle xs a b hnd hab hna' (by rw [← hnb]; exact he)
    have h1 := Reg.swap_case1_st r a b hab hws hadj1 Epaa E2 E3 Enbb
    have hr'a : (Reg.swap_clients r a b).st a =
        ⟨some b, (r.st b).next, (r.st a).workspace⟩ := by
      rw [h1 a, if_pos rfl]
    have hr'b : (Reg.swap_clients r a b).st b =
        ⟨(r.st a).prev, some a, (r.st b).workspace⟩ := by
      rw [h1 b, if_neg hba, if_pos rfl]
    have hws' : ((Reg.swap_clients r a b).st a).workspace =
        ((Reg.swap_clients r a b).st b).workspace := by
      rw [hr'a, hr'b]
      exact hws
    have hadj2' : ((Reg.swap_clients r a b).st b).next = some a := by rw [hr'b]
    have hnadj1' : ((Reg.swap_clients r a b).st a).next ≠ some b := by
      rw [hr'a]
      exact Enbb
    have E1' : ((Reg.swap_clients r a b).st a).next ≠ some a := by
      rw [hr'a]
      exact E3
    have E2' : ((Reg.swap_clients r a b).st b).prev ≠ some a := by
      rw [hr'b]
      exact Epaa
    have E3' : ((Reg.swap_clients r a b).st b).prev ≠ some b := by
      rw [hr'b]
      exact E2
    have h2 := Reg.swap_case2_st (Reg.swap_clients r a b) a b hab hws' hadj2' hnadj1'
      E1' E2' E3'
    have hh2 := Reg.swap_head (Reg.swap_clients r a b) a b hab hws'
    constructor
    · rw [hh2, hh1]
      exact Reg.swap_head_invol r.head a b hab
    · intro i
      by_cases hia : i = a
      · rw [hia, h2 a, if_pos rfl, hr'b, hr'a]
        dsimp only
        rw [← hadj1]
      · by_cases hib : i = b
        · rw [hib, h2 b, if_neg hba, if_pos rfl, hr'a, hr'b]
          dsimp only
          rw [← Ina b hadj1]
        · have hPrev : ((Reg.swap_clients (Reg.swap_clients r a b) a b).st i).prev =
              (r.st i).prev := by
            rw [h2 i, if_neg hia, if_neg hib, hr'a, h1 i, if_neg hia, if_neg hib]
            dsimp only
            split_ifs with hq1
            · exact (Inb i hq1).symm
            · rfl
          have hNext : ((Reg.swap_clients (Reg.swap_clients r a b) a b).st i).next =
              (r.st i).next := by
            rw [h2 i, if_neg hia, if_neg hib, hr'b, h1 i, if_neg hia, if_neg hib]
            dsimp only
            split_ifs with hp1
            · exact (Ipa i hp1).symm
            · rfl
          have hWs : ((Reg.swap_clients (Reg.swap_clients r a b) a b).st i).workspace =
              (r.st i).workspace := by
            rw [h2 i, if_neg hia, if_neg hib, h1 i, if_neg hia, if_neg hib]
          calc (Reg.swap_clients (Reg.swap_clients r a b) a b).st i
              = ⟨((Reg.swap_clients (Reg.swap_clients r a b) a b).st i).prev,
                 ((Reg.swap_clients (Reg.swap_clients r a b) a b).st i).next,
                 ((Reg.swap_clients (Reg.swap_clients r a b) a b).st i).workspace⟩ := rfl
            _ = ⟨(r.st i).prev, (r.st i).next, (r.st i).workspace⟩ := by
                rw [hPrev, hNext, hWs]
            _ = r.st i := rfl
  · by_cases hadj2 : (r.st b).next = some a
    · -- b immediately before a
      have E2b : (r.st b).prev ≠ some a := fun he => hadj1 (Ipb a he)
      have h1 := Reg.swap_case2_st r a b hab hws hadj2 hadj1 Enaa E2b Epbb
      have hr'a : (Reg.swap_clients r a b).st a =
          ⟨(r.st b).prev, some b, (r.st a).workspace⟩ := by
        rw [h1 a, if_pos rfl]
      have hr'b : (Reg.swap_clients r a b).st b =
          ⟨some a, (r.st a).next, (r.st b).workspace⟩ := by
        rw [h1 b, if_neg hba, if_pos rfl]
      have hws' : ((Reg.swap_clients r a b).st a).workspace =
          ((Reg.swap_clients r a b).st b).workspace := by
        rw [hr'a, hr'b]
        exact hws
      have hadj1' : ((Reg.swap_clients r a b).st a).next = some b := by rw [hr'a]
      have E1c : ((Reg.swap_clients r a b).st a).prev ≠ some a := by
        rw [hr'a]
        exact E2b
      have E2c : ((Reg.swap_clients r a b).st a).prev ≠ some b := by
        rw [hr'a]
        exact Epbb
      have E3c : ((Reg.swap_clients r a b).st b).next ≠ some a := by
        rw [hr'b]
        exact Enaa
      have E4c : ((Reg.swap_clients r a b).st b).next ≠ some b := by
        rw [hr'b]
        exact hadj1
      have h2 := Reg.swap_case1_st (Reg.swap_clients r a b) a b hab hws' hadj1'
        E1c E2c E3c E4c
      have hh2 := Reg.swap_head (Reg.swap_clients r a b) a b hab hws'
      constructor
      · rw [hh2, hh1]
        exact Reg.swap_head_invol r.head a b hab
      · intro i
        by_cases hia : i = a
        · rw [hia, h2 a, if_pos rfl, hr'b, hr'a]
          dsimp only
          rw [← Inb a hadj2]
        · by_cases hib : i = b
          · rw [hib, h2 b, if_neg hba, if_pos rfl, hr'a, hr'b]
            dsimp only
            rw [← hadj2]
          · have hPrev : ((Reg.swap_clients (Reg.swap_clients r a b) a b).st i).prev =
                (r.st i).prev := by
              rw [h2 i, if_neg hia, if_neg hib, hr'b, h1 i, if_neg hia, if_neg hib]
              dsimp only
              split_ifs with hq1
              · exact (Ina i hq1).symm
              · rfl
            have hNext : ((Reg.swap_clients (Reg.swap_clients r a b) a b).st i).next =
                (r.st i).next := by
              rw [h2 i, if_neg hia, if_neg hib, hr'a, h1 i, if_neg hia, if_neg hib]
              dsimp only
              split_ifs with hp1
              · exact (Ipb i hp1).symm
              · rfl
            have hWs : ((Reg.swap_clients (Reg.swap_clients r a b) a b).st i).workspace =
                (r.st i).workspace := by
              rw [h2 i, if_neg hia, if_neg hib, h1 i, if_neg hia, if_neg hib]
            calc (Reg.swap_clients (Reg.swap_clients r a b) a b).st i
                = ⟨((Reg.swap_clients (Reg.swap_clients r a b) a b).st i).prev,
                   ((Reg.swap_clients (Reg.swap_clients r a b) a b).st i).next,
                   ((Reg.swap_clients (Reg.swap_clients r a b) a b).st i).workspace⟩ := rfl
              _ = ⟨(r.st i).prev, (r.st i).next, (r.st i).workspace⟩ := by
                  rw [hPrev, hNext, hWs]
              _ = r.st i := rfl
    · -- non-adjacent
      have Eab : (r.st a).prev ≠ some b := fun he => hadj2 (Ipa b he)
      have Eba : (r.st b).prev ≠ some a := fun he => hadj1 (Ipb a he)
      have h1 := Reg.swap_case3_st r a b hab hws hadj1 hadj2 Epaa Enaa Epbb Enbb Eab Eba
      have hr'a : (Reg.swap_clients r a b).st a =
          ⟨(r.st b).prev, (r.st b).next, (r.st a).workspace⟩ := by
        rw [h1 a, if_pos rfl]
      have hr'b : (Reg.swap_clients r a b).st b =
          ⟨(r.st a).prev, (r.st a).next, (r.st b).workspace⟩ := by
        rw [h1 b, if_neg hba, if_pos rfl]
      have hws' : ((Reg.swap_clients r a b).st a).workspace =
          ((Reg.swap_clients r a b).st b).workspace := by
        rw [hr'a, hr'b]
        exact hws
      have hnadj1' : ((Reg.swap_clients r a b).st a).next ≠ some b := by
        rw [hr'a]
        exact Enbb
      have hnadj2' : ((Reg.swap_clients r a b).st b).next ≠ some a := by
        rw [hr'b]
        exact Enaa
      have Ea1c : ((Reg.swap_clients r a b).st a).prev ≠ some a := by
        rw [hr'a]
        exact Eba
      have Ea2c : ((Reg.swap_clients r a b).st a).next ≠ some a := by
        rw [hr'a]
        exact hadj2
      have Eb1c : ((Reg.swap_clients r a b).st b).prev ≠ some b := by
        rw [hr'b]
        exact Eab
      have Eb2c : ((Reg.swap_clients r a b).st b).next ≠ some b := by
        rw [hr'b]
        exact hadj1
      have Eabc : ((Reg.swap_clients r a b).st a).prev ≠ some b := by
        rw [hr'a]
        exact Epbb
      have Ebac : ((Reg.swap_clients r a b).st b).prev ≠ some a := by
        rw [hr'b]
        exact Epaa
      have h2 := Reg.swap_case3_st (Reg.swap_clients r a b) a b hab hws' hnadj1' hnadj2'
        Ea1c Ea2c Eb1c Eb2c Eabc Ebac
      have hh2 := Reg.swap_head (Reg.swap_clients r a b) a b hab hws'
      constructor
      · rw [hh2, hh1]
        exact Reg.swap_head_invol r.head a b hab
      · intro i
        by_cases hia : i = a
        · rw [hia, h2 a, if_pos rfl, hr'b, hr'a]
        · by_cases hib : i = b
          · rw [hib, h2 b, if_neg hba, if_pos rfl, hr'a, hr'b]
          · have hPrev : ((Reg.swap_clients (Reg.swap_clients r a b) a b).st i).prev =
                (r.st i).prev := by
              rw [h2 i, if_neg hia, if_neg hib, hr'b, hr'a, h1 i, if_neg hia, if_neg hib]
              dsimp only
              split_ifs with hq1 hq2
              · exact (Ina i hq1).symm
              · exact (Inb i hq2).symm
              · rfl
            have hNext : ((Reg.swap_clients (Reg.swap_clients r a b) a b).st i).next =
                (r.st i).next := by
              rw [h2 i, if_neg hia, if_neg hib, hr'b, hr'a, h1 i, if_neg hia, if_neg hib]
              dsimp only
              split_ifs with hp1 hp2
              · exact (Ipa i hp1).symm
              · exact (Ipb i hp2).symm
              · rfl
            have hWs : ((Reg.swap_clients (Reg.swap_clients r a b) a b).st i).workspace =
                (r.st i).workspace := by
              rw [h2 i, if_neg hia, if_neg hib, h1 i, if_neg hia, if_neg hib]
            calc (Reg.swap_clients (Reg.swap_clients r a b) a b).st i
                = ⟨((Reg.swap_clients (Reg.swap_clients r a b) a b).st i).prev,
                   ((Reg.swap_clients (Reg.swap_clients r a b) a b).st i).next,
                   ((Reg.swap_clients (Reg.swap_clients r a b) a b).st i).workspace⟩ := rfl
              _ = ⟨(r.st i).prev, (r.st i).next, (r.st i).workspace⟩ := by
                  rw [hPrev, hNext, hWs]
              _ = r.st i := rfl

/-- Witness instantiating `C7_swap_clients_involutive` on a concrete
four-node registry, swapping the adjacent middle pair. -/
theorem C7_witness :
    (Reg.swap_clients (Reg.swap_clients
        { head := some 1,
          st := fun i =>
            if i = 1 then ⟨none, some 2, 5⟩
            else if i = 2 then ⟨some 1, some 3, 5⟩
            else if i = 3 then ⟨some 2, some 4, 5⟩
            else if i = 4 then ⟨some 3, none, 5⟩
            else ⟨none, none, 0⟩ } 2 3) 2 3).head =
      (({ head := some 1,
          st := fun i =>
            if i = 1 then ⟨none, some 2, 5⟩
            else if i = 2 then ⟨some 1, some 3, 5⟩
            else if i = 3 then ⟨some 2, some 4, 5⟩
            else if i = 4 then ⟨some 3, none, 5⟩
            else ⟨none, none, 0⟩ } : Reg.State)).head ∧
    (∀ i, (Reg.swap_clients (Reg.swap_clients
        { head := some 1,
          st := fun i =>
            if i = 1 then ⟨none, some 2, 5⟩
            else if i = 2 then ⟨some 1, some 3, 5⟩
            else if i = 3 then ⟨some 2, some 4, 5⟩
            else if i = 4 then ⟨some 3, none, 5⟩
            else ⟨none, none, 0⟩ } 2 3) 2 3).st i =
      (({ head := some 1,
          st := fun i =>
            if i = 1 then ⟨none, some 2, 5⟩
            else if i = 2 then ⟨some 1, some 3, 5⟩
            else if i = 3 then ⟨some 2, some 4, 5⟩
            else if i = 4 then ⟨some 3, none, 5⟩
            else ⟨none, none, 0⟩ } : Reg.State)).st i) :=
  C7_swap_clients_involutive
    { head := some 1,
      st := fun i =>
        if i = 1 then ⟨none, some 2, 5⟩
        else if i = 2 then ⟨some 1, some 3, 5⟩
        else if i = 3 then ⟨some 2, some 4, 5⟩
        else if i = 4 then ⟨some 3, none, 5⟩
        else ⟨none, none, 0⟩ }
    [1, 2, 3, 4] 2 3 ⟨rfl, by decide, by decide⟩
    (by decide) (by decide) (by decide) (by decide)
